import Mathlib

/-!
# Web Usability Analyzer — verification of the normalization pipeline,
  provider adapter and history store

Shallow embedding of the TypeScript sources:
  * `src/lib/ai-analysis.ts`   — `AIAnalysisEngine` (category catalog, Krug
    fallback table, `processAnalysisResult`, `generateContextualTasks`,
    `getTaskMappingForIssue`, `getAdditionalTasksForCategory`,
    `calculateOverallScore`, `getClaudeAnalysis`)
  * the `HistoryManager` module (localStorage-backed history store)

JavaScript dynamic values are embedded as the inductive type `JVal`
(parsed-JSON shapes plus `undefined`); JS operations that can throw a
`TypeError` (member access on null/undefined, calling a method that is
`undefined` on the receiver) are embedded in the `Except JsError` monad.
Numbers are embedded as `Rat` (JSON has no NaN/Infinity literal); `NaN`
arising from JS coercions is the dedicated constructor `JNum.nan`.
-/

set_option maxHeartbeats 1000000

/- Batteries marks `Rat.add`/`Rat.mul`/`Rat.inv`/`Rat.sub` irreducible,
which blocks `decide` from evaluating the embedded JS arithmetic on
concrete inputs; restore the default transparency for this file. -/
set_option allowUnsafeReducibility true
attribute [local semireducible] Rat.add Rat.mul Rat.inv Rat.sub

namespace WebUsability

/-- A thrown JavaScript runtime exception (`TypeError` from member
access on `null`/`undefined` or calling a method absent on the
receiver, `SyntaxError` from `JSON.parse`).  Messages are modelled only
where control flow inspects them (the Claude adapter loop carries its
messages explicitly). -/
inductive JsError where
  | typeError : JsError
deriving DecidableEq, Repr

/-- A JavaScript value as it can occur in this code base: everything
`JSON.parse` can produce, plus `undefined` (absent object fields,
short-circuited optional chains). `undefined` and `null` are separate
constructors because JS distinguishes them (e.g. `x || undefined`
produces `undefined`). Object literals keep their key/value list in
insertion order; duplicate keys are resolved by `objLookup` taking the
last binding, as `JSON.parse` and object literals do. -/
inductive JVal where
  | undefined : JVal
  | null : JVal
  | bool : Bool → JVal
  | num : Rat → JVal
  | str : String → JVal
  | arr : List JVal → JVal
  | obj : List (String × JVal) → JVal
deriving Repr

/-- A JS number: either NaN or a (finite) rational. JSON input numbers are
always finite; NaN arises from coercing non-numeric values. -/
inductive JNum where
  | nan : JNum
  | val : Rat → JNum
deriving DecidableEq, Repr

mutual

private def jvalBeq : JVal → JVal → Bool
  | .undefined, .undefined => true
  | .null, .null => true
  | .bool a, .bool b => a = b
  | .num a, .num b => a = b
  | .str a, .str b => a = b
  | .arr a, .arr b => jvalListBeq a b
  | .obj a, .obj b => jvalObjBeq a b
  | _, _ => false

private def jvalListBeq : List JVal → List JVal → Bool
  | [], [] => true
  | a :: as, b :: bs => jvalBeq a b && jvalListBeq as bs
  | _, _ => false

private def jvalObjBeq : List (String × JVal) → List (String × JVal) → Bool
  | [], [] => true
  | (k, a) :: as, (l, b) :: bs => k = l && jvalBeq a b && jvalObjBeq as bs
  | _, _ => false

end

mutual

private theorem jvalBeq_eq : ∀ a b : JVal, jvalBeq a b = true → a = b
  | .undefined, .undefined, _ => rfl
  | .null, .null, _ => rfl
  | .bool _, .bool _, h => by
      simp only [jvalBeq, decide_eq_true_eq] at h; rw [h]
  | .num _, .num _, h => by
      simp only [jvalBeq, decide_eq_true_eq] at h; rw [h]
  | .str _, .str _, h => by
      simp only [jvalBeq, decide_eq_true_eq] at h; rw [h]
  | .arr a, .arr b, h => by
      simp only [jvalBeq] at h
      rw [jvalListBeq_eq a b h]
  | .obj a, .obj b, h => by
      simp only [jvalBeq] at h
      rw [jvalObjBeq_eq a b h]

private theorem jvalListBeq_eq : ∀ a b : List JVal, jvalListBeq a b = true → a = b
  | [], [], _ => rfl
  | x :: xs, y :: ys, h => by
      simp only [jvalListBeq, Bool.and_eq_true] at h
      rw [jvalBeq_eq x y h.1, jvalListBeq_eq xs ys h.2]

private theorem jvalObjBeq_eq :
    ∀ a b : List (String × JVal), jvalObjBeq a b = true → a = b
  | [], [], _ => rfl
  | (k, x) :: xs, (l, y) :: ys, h => by
      simp only [jvalObjBeq, Bool.and_eq_true, decide_eq_true_eq] at h
      rw [h.1.1, jvalBeq_eq x y h.1.2, jvalObjBeq_eq xs ys h.2]

end

mutual

private theorem jvalBeq_rfl : ∀ a : JVal, jvalBeq a a = true
  | .undefined => rfl
  | .null => rfl
  | .bool _ => by simp [jvalBeq]
  | .num _ => by simp [jvalBeq]
  | .str _ => by simp [jvalBeq]
  | .arr a => by simp only [jvalBeq]; exact jvalListBeq_rfl a
  | .obj a => by simp only [jvalBeq]; exact jvalObjBeq_rfl a

private theorem jvalListBeq_rfl : ∀ a : List JVal, jvalListBeq a a = true
  | [] => rfl
  | x :: xs => by
      simp only [jvalListBeq, Bool.and_eq_true]
      exact ⟨jvalBeq_rfl x, jvalListBeq_rfl xs⟩

private theorem jvalObjBeq_rfl : ∀ a : List (String × JVal), jvalObjBeq a a = true
  | [] => rfl
  | (k, x) :: xs => by
      simp only [jvalObjBeq, Bool.and_eq_true, decide_eq_true_eq]
      exact ⟨⟨trivial, jvalBeq_rfl x⟩, jvalObjBeq_rfl xs⟩

end

instance : DecidableEq JVal := fun a b =>
  if h : jvalBeq a b = true then
    .isTrue (jvalBeq_eq a b h)
  else
    .isFalse (fun he => h (he ▸ jvalBeq_rfl a))

/-- JS truthiness: `undefined`, `null`, `false`, `0`, `NaN` and `""` are
falsy; everything else (including empty arrays and objects) is truthy.
JSON input cannot contain NaN so `num` is falsy exactly at 0. -/
def jsTruthy : JVal → Bool
  | .undefined => false
  | .null => false
  | .bool b => b
  | .num q => q ≠ 0
  | .str s => s ≠ ""
  | .arr _ => true
  | .obj _ => true

/-- JS `a || b`: `a` if truthy, else `b`. -/
def jsOr (a b : JVal) : JVal := if jsTruthy a then a else b

/-- JS `a || undefined` (used by the issue sanitizer). -/
def jsOrUndefined (a : JVal) : JVal := jsOr a .undefined

/-- Object field lookup, last binding wins (matches `JSON.parse` and
object-literal duplicate-key semantics). -/
def objLookup (kvs : List (String × JVal)) (k : String) : JVal :=
  match kvs with
  | [] => .undefined
  | (k', v) :: rest =>
      let r := objLookup rest k
      if r = .undefined ∧ k' = k then v else r

/-- JS member access `v.k`. Throws `TypeError` on `null`/`undefined`;
on primitives and arrays it yields `undefined` except for the `length`
property of strings and arrays (the only built-in property this code
base reads). -/
def jsGetField : JVal → String → Except JsError JVal
  | .undefined, _ => .error .typeError
  | .null, _ => .error .typeError
  | .obj kvs, k => .ok (objLookup kvs k)
  | .arr xs, k => .ok (if k = "length" then .num xs.length else .undefined)
  | .str s, k => .ok (if k = "length" then .num s.length else .undefined)
  | .bool _, _ => .ok .undefined
  | .num _, _ => .ok .undefined

/-- JS optional member access `v?.k`: `undefined` when the receiver is
`null`/`undefined`, otherwise ordinary member access (total on the
remaining constructors). -/
def jsOptField (v : JVal) (k : String) : JVal :=
  match jsGetField v k with
  | .ok x => x
  | .error _ => .undefined

/-- JS index access `v[i]` for a natural index (used for
`data.content[0]` in the Claude adapter). Throws on `null`/`undefined`;
strings index to 1-character strings; objects look the decimal key up. -/
def jsIndex : JVal → Nat → Except JsError JVal
  | .undefined, _ => .error .typeError
  | .null, _ => .error .typeError
  | .arr xs, i => .ok ((xs.get? i).getD .undefined)
  | .str s, i =>
      .ok (match s.toList.get? i with
           | some c => .str (String.mk [c])
           | none => .undefined)
  | .obj kvs, i => .ok (objLookup kvs (toString i))
  | .bool _, _ => .ok .undefined
  | .num _, _ => .ok .undefined

/-- Substring test (JS `String.prototype.includes`): does `needle` occur
contiguously in `hay`? -/
def listStartsWith : List Char → List Char → Bool
  | _, [] => true
  | [], _ :: _ => false
  | a :: as, b :: bs => a = b && listStartsWith as bs

def listContainsSub (hay needle : List Char) : Bool :=
  match hay with
  | [] => needle.isEmpty
  | _ :: t => listStartsWith hay needle || listContainsSub t needle

def strContains (hay needle : String) : Bool :=
  listContainsSub hay.toList needle.toList

/-- JS string whitespace (the ASCII part of the `trim` set; JS also
strips Unicode spaces, which cannot occur in the keyword tables or the
falsy-check paths this model exercises). -/
def jsWhitespace (c : Char) : Bool :=
  c = ' ' ∨ c = '\t' ∨ c = '\n' ∨ c = '\r' ∨ c = '\x0b' ∨ c = '\x0c'

/-- JS `String.prototype.trim` (ASCII whitespace). -/
def jsTrim (s : String) : String :=
  String.mk (((s.toList.dropWhile jsWhitespace).reverse.dropWhile jsWhitespace).reverse)

/-- JS `String.prototype.toLowerCase` restricted to ASCII letters (the
keyword tables it is compared against are pure ASCII). -/
def jsCharToLower (c : Char) : Char :=
  if 65 ≤ c.toNat ∧ c.toNat ≤ 90 then Char.ofNat (c.toNat + 32) else c

def jsToLower (s : String) : String := String.mk (s.toList.map jsCharToLower)

/-! ## JS numeric coercion (`ToNumber`)

Only the shapes reachable from parsed JSON are modelled.  String
numeric literals are parsed with the decimal grammar
`[+-]? (digits [. digits?] | . digits) ([eE] [+-]? digits)?` after
trimming; the exotic forms (`Infinity`, hex/octal/binary prefixes)
coerce to NaN in this model.  Arrays coerce through their JS string
form (comma-joined elements), objects through `"[object Object]"`
(hence NaN). -/

def digitVal (c : Char) : Option Nat :=
  if c.isDigit then some (c.toNat - 48) else none

def takeDigits : List Char → (List Nat × List Char)
  | [] => ([], [])
  | c :: cs =>
      match digitVal c with
      | some d => let (ds, rest) := takeDigits cs; (d :: ds, rest)
      | none => ([], c :: cs)

def digitsToNat (ds : List Nat) : Nat := ds.foldl (fun a d => a * 10 + d) 0

/-- Parse an unsigned decimal mantissa (`digits [. digits?]` or
`. digits`), returning its value and the unconsumed tail. -/
def parseMantissa (cs : List Char) : Option (Rat × List Char) :=
  let (ip, rest) := takeDigits cs
  match rest with
  | '.' :: rest2 =>
      let (fp, rest3) := takeDigits rest2
      if ip.isEmpty ∧ fp.isEmpty then none
      else some ((digitsToNat ip : Rat) + (digitsToNat fp : Rat) / ((10 : Rat) ^ fp.length), rest3)
  | _ => if ip.isEmpty then none else some ((digitsToNat ip : Rat), rest)

/-- Parse an optional exponent part (`[eE] [+-]? digits`). -/
def parseExpPart (cs : List Char) : Option (Int × List Char) :=
  match cs with
  | 'e' :: rest | 'E' :: rest =>
      let (sgn, rest2) : (Int × List Char) :=
        match rest with
        | '+' :: r => (1, r)
        | '-' :: r => (-1, r)
        | r => (1, r)
      let (ds, rest3) := takeDigits rest2
      if ds.isEmpty then none else some (sgn * (digitsToNat ds : Int), rest3)
  | rest => some (0, rest)

def applyExp (q : Rat) (e : Int) : Rat :=
  if 0 ≤ e then q * (10 : Rat) ^ e.toNat else q / (10 : Rat) ^ (-e).toNat

/-- Parse a complete signed decimal literal, requiring full consumption. -/
def parseDecLiteral (cs : List Char) : Option Rat :=
  let (sgn, rest) : (Rat × List Char) :=
    match cs with
    | '+' :: r => (1, r)
    | '-' :: r => (-1, r)
    | r => (1, r)
  match parseMantissa rest with
  | none => none
  | some (m, rest2) =>
      match parseExpPart rest2 with
      | some (e, []) => some (sgn * applyExp m e)
      | _ => none

/-- JS `ToNumber` on a string: trim, empty → 0, else decimal literal or
NaN. -/
def jsStringToNumber (s : String) : JNum :=
  let t := jsTrim s
  if t = "" then .val 0
  else
    match parseDecLiteral t.toList with
    | some q => .val q
    | none => .nan

/-- Multiplicity of the prime `p` in `n` (fuel-bounded, fuel `n`
suffices). -/
def factorCount (p : Nat) : Nat → Nat → Nat
  | 0, _ => 0
  | fuel + 1, n => if n % p = 0 ∧ 2 ≤ n then 1 + factorCount p fuel (n / p) else 0

def natPadLeft (s : String) (k : Nat) : String :=
  String.mk (List.replicate (k - s.length) '0') ++ s

/-- JS `String(number)` for the rationals that can arise from parsed
JSON (denominator a power of two, printed as an exact finite decimal;
integers without a decimal point). Rationals with other denominators
cannot arise from JSON input; they render as a non-numeric marker. -/
def ratToJsString (q : Rat) : String :=
  let a := factorCount 2 q.den q.den
  let b := factorCount 5 q.den q.den
  if q.den = 2 ^ a * 5 ^ b then
    let k := max a b
    let m : Int := q.num * (10 : Int) ^ k / (q.den : Int)
    if k = 0 then toString m
    else
      let sign := if m < 0 then "-" else ""
      let n := m.natAbs
      sign ++ toString (n / 10 ^ k) ++ "." ++ natPadLeft (toString (n % 10 ^ k)) k
  else "?"

mutual

/-- Element rendering inside JS `Array.prototype.join` (null/undefined
render empty). -/
def jvalElemStr : JVal → String
  | .undefined => ""
  | .null => ""
  | .bool b => if b then "true" else "false"
  | .num q => ratToJsString q
  | .str s => s
  | .arr xs => jvalJoinList xs
  | .obj _ => "[object Object]"

/-- JS `String(array)`: elements joined with commas. -/
def jvalJoinList : List JVal → String
  | [] => ""
  | [x] => jvalElemStr x
  | x :: y :: rest => jvalElemStr x ++ "," ++ jvalJoinList (y :: rest)

end

/-- JS `ToNumber`. -/
def toNumber : JVal → JNum
  | .undefined => .nan
  | .null => .val 0
  | .bool b => .val (if b then 1 else 0)
  | .num q => .val q
  | .str s => jsStringToNumber s
  | .arr xs => jsStringToNumber (jvalJoinList xs)
  | .obj _ => .nan

/-- JS `Math.min(c, x)` with a numeric first argument. -/
def jnMinConst (c : Rat) : JNum → JNum
  | .nan => .nan
  | .val q => .val (min c q)

/-- JS `Math.max(c, x)` with a numeric first argument. -/
def jnMaxConst (c : Rat) : JNum → JNum
  | .nan => .nan
  | .val q => .val (max c q)

def jnAdd : JNum → JNum → JNum
  | .nan, _ => .nan
  | _, .nan => .nan
  | .val a, .val b => .val (a + b)

def jnMulNat : JNum → Nat → JNum
  | .nan, _ => .nan
  | .val a, w => .val (a * w)

/-- JS division by an integer denominator.  A zero denominator yields a
non-finite result in JS (`Infinity`/`NaN`); it is collapsed to `nan`
here and is unreachable from the pipeline (the category catalog is
nonempty with positive weights). -/
def jnDivNat : JNum → Nat → JNum
  | .nan, _ => .nan
  | .val q, w => if w = 0 then .nan else .val (q / w)

/-- JS `Math.round`: half-up (toward +∞). -/
def jsRound : JNum → JNum
  | .nan => .nan
  | .val q => .val ((⌊q + 1 / 2⌋ : Int) : Rat)

/-- Numeric `<` comparison against a constant (JS relational operator
after `ToNumber`; false when NaN). -/
def jsLtNum (v : JVal) (c : Rat) : Bool :=
  match toNumber v with
  | .nan => false
  | .val q => q < c

/-- Numeric `>` comparison against a constant. -/
def jsGtNum (v : JVal) (c : Rat) : Bool :=
  match toNumber v with
  | .nan => false
  | .val q => c < q

/-- `src/lib/ai-analysis.ts:492, processAnalysisResult`:
`Math.max(0, Math.min(100, aiCategory.score || 50))`. -/
def normalizeScore (v : JVal) : JNum :=
  jnMaxConst 0 (jnMinConst 100 (toNumber (jsOr v (.num 50))))

/-! ## The category catalog and the Krug fallback table -/

/-- One entry of `USABILITY_CATEGORIES`
(`src/lib/ai-analysis.ts:4-59`). -/
structure CategoryTemplate where
  id : String
  name : String
  description : String
  weight : Nat
deriving DecidableEq, Repr

def USABILITY_CATEGORIES : List CategoryTemplate :=
  [ { id := "navigation", name := "Navigation Clarity",
      description := "How easy it is to find and use navigation elements", weight := 20 },
    { id := "content_hierarchy", name := "Content Hierarchy",
      description := "Clear visual hierarchy and content organization", weight := 18 },
    { id := "page_names", name := "Page Names & Breadcrumbs",
      description := "Clear page identification and location awareness", weight := 15 },
    { id := "search", name := "Search Functionality",
      description := "Effective search features and results", weight := 12 },
    { id := "forms", name := "Forms & User Input",
      description := "User-friendly forms and input validation", weight := 10 },
    { id := "mobile_usability", name := "Mobile Usability",
      description := "Mobile responsiveness and touch interactions", weight := 10 },
    { id := "page_loading", name := "Page Loading & Performance",
      description := "Fast loading times and performance optimization", weight := 8 },
    { id := "accessibility", name := "Accessibility",
      description := "Accessible design for all users", weight := 5 },
    { id := "error_handling", name := "Error Handling",
      description := "Clear error messages and recovery paths", weight := 2 } ]

/-- A (sanitized or fallback) usability issue.  `type` is always one of
`high`/`medium`/`low` after sanitization; the other fields keep their JS
value (the sanitizer defaults `description` but passes any truthy value
through, and maps falsy `element`/`page`/`krugPrinciple` to
`undefined`).  Fallback issue literals carry no `page` key; reading it
yields `undefined`, so it is embedded as `.undefined`. -/
structure Issue where
  type : String
  description : JVal
  element : JVal
  page : JVal
  krugPrinciple : JVal
deriving DecidableEq, Repr

/-- A fully normalized category (`UsabilityCategory` in the TS types):
the catalog fields plus the analysis fields produced by
`processAnalysisResult`.  `recommendations` and `details` keep their JS
value: the pipeline passes any truthy provider value through for these
fields. -/
structure UsabilityCategory where
  id : String
  name : String
  description : String
  weight : Nat
  score : JNum
  issues : List Issue
  strengths : List String
  recommendations : JVal
  implementationTasks : List String
  details : JVal
  assessment : String
deriving DecidableEq, Repr

/-- Fallback issue literal `{type, description, element, krugPrinciple}`. -/
def mkIssue (t d el kp : String) : Issue :=
  { type := t, description := .str d, element := .str el, page := .undefined,
    krugPrinciple := .str kp }

/-- Fallback recommendation literal `{action, userTask, krugReference}`. -/
def mkRec (a u k : String) : JVal :=
  .obj [("action", .str a), ("userTask", .str u), ("krugReference", .str k)]

/-- The per-category payload of the `krugRecommendations` table inside
`getKrugBasedRecommendations` (`src/lib/ai-analysis.ts:645-955`). -/
structure KrugFallbackData where
  score : Rat
  assessment : String
  strengths : List String
  issues : List Issue
  recommendations : JVal
  implementationTasks : List String
  details : JVal
deriving DecidableEq, Repr

/-- The `krugRecommendations` fallback table: the object literal inside
`getKrugBasedRecommendations`, as an association list in key insertion
order (the literal has no duplicate keys, so first-match lookup agrees
with JS property lookup). -/
def krugTable : List (String × KrugFallbackData) :=
  [ ("navigation",
      { score := 70, assessment := "moderate",
        strengths :=
          [ "Basic navigation structure appears to be present",
            "Navigation elements seem to be positioned conventionally" ],
        issues :=
          [ mkIssue "medium"
              "Navigation may lack \"you are here\" indicators for location awareness"
              "site navigation"
              "Users must always know where they are (Chapter 6)",
            mkIssue "medium"
              "Breadcrumb navigation may be missing"
              "navigation breadcrumbs"
              "Show path from home to current location (Chapter 6)" ],
        recommendations := .arr
          [ mkRec "Implement persistent navigation on every page"
              "Ensure site ID/logo, primary sections, and utilities appear consistently"
              "Chapter 6: Street Signs and Breadcrumbs",
            mkRec "Add \"you are here\" indicators"
              "Highlight current page/section in navigation menu"
              "Chapter 6: Persistent Navigation" ],
        implementationTasks :=
          [ "[ ] Design persistent navigation with site ID/logo linking to home",
            "[ ] Add primary sections and utilities (search, login, help)",
            "[ ] Implement current page indicators with visual styling",
            "[ ] Create breadcrumb trail showing path from home",
            "[ ] Test with \"trunk test\" - can users identify current location?" ],
        details := .str "Navigation should follow Krug\x27s principles of persistent, clear wayfinding that tells users where they are and where they can go." }),
    ("content_hierarchy",
      { score := 65, assessment := "moderate",
        strengths :=
          [ "Content appears to have basic heading structure",
            "Visual separation between different content areas seems present" ],
        issues :=
          [ mkIssue "medium"
              "Content may not be optimized for scanning behavior"
              "page content"
              "Users scan, they don\x27t read (Chapter 2)",
            mkIssue "low"
              "Visual hierarchy could be strengthened for better information prioritization"
              "content layout"
              "Make important things more prominent (Chapter 3)" ],
        recommendations := .arr
          [ mkRec "Implement clear visual hierarchy with prominent headings"
              "Make important elements larger, bolder, or more prominent"
              "Chapter 3: Billboard Design 101",
            mkRec "Format text for scanning with bullet points and short paragraphs"
              "Use descriptive headings and highlight key terms"
              "Chapter 3: Scannable Text" ],
        implementationTasks :=
          [ "[ ] Implement visual hierarchy with important elements more prominent",
            "[ ] Use plenty of headings and subheadings for scanning",
            "[ ] Keep paragraphs short and use bulleted lists",
            "[ ] Highlight key terms and phrases",
            "[ ] Reduce visual noise and use white space effectively" ],
        details := .str "Content should be designed like a billboard - clear, scannable, and immediately understandable." }),
    ("page_names",
      { score := 70, assessment := "moderate",
        strengths :=
          [ "Pages appear to have titles or headings",
            "Basic page identification seems to be in place" ],
        issues :=
          [ mkIssue "medium"
              "Page names may not match navigation link text"
              "page titles"
              "Page name should match what user clicked (Chapter 6)" ],
        recommendations := .arr
          [ mkRec "Ensure page names match navigation links exactly"
              "Review all page titles for consistency with navigation text"
              "Chapter 6: Page Names" ],
        implementationTasks :=
          [ "[ ] Create prominent page names matching navigation links",
            "[ ] Position page names as headings for unique content",
            "[ ] Implement breadcrumb trail for location awareness",
            "[ ] Test \"trunk test\" - can users identify where they are?" ],
        details := .str "Clear page identification is essential for user orientation and confidence." }),
    ("search",
      { score := 60, assessment := "moderate",
        strengths := [ "Site may have search functionality available" ],
        issues :=
          [ mkIssue "medium"
              "Search functionality may not follow web conventions"
              "search interface"
              "Follow established web conventions (Chapter 3)",
            mkIssue "low"
              "Search box may not be in expected location (top right)"
              "search placement"
              "Put things where users expect to find them (Chapter 3)" ],
        recommendations := .arr
          [ mkRec "Position search box in conventional location (top right)"
              "Place search where users expect to find it"
              "Chapter 3: Web Conventions" ],
        implementationTasks :=
          [ "[ ] Position search box in expected location (top right)",
            "[ ] Make search box prominent and obviously searchable",
            "[ ] Include search on every page for persistence",
            "[ ] Provide effective search results and suggestions" ],
        details := .str "Search should follow web conventions and be self-evident to users." }),
    ("forms",
      { score := 65, assessment := "moderate",
        strengths :=
          [ "Forms appear to have proper labels and structure",
            "Basic form usability seems to be considered" ],
        issues :=
          [ mkIssue "medium"
              "Forms may require too much thinking from users"
              "form interfaces"
              "Eliminate question marks and make choices mindless (Chapter 4)" ],
        recommendations := .arr
          [ mkRec "Simplify form choices and reduce required fields"
              "Audit forms for unnecessary complexity"
              "Chapter 4: Mindless Choices" ],
        implementationTasks :=
          [ "[ ] Audit forms for unnecessary fields and complexity",
            "[ ] Make form choices obvious and mindless",
            "[ ] Associate form labels clearly with fields",
            "[ ] Provide clear, immediate help when needed",
            "[ ] Accept data in multiple formats where possible" ],
        details := .str "Forms should require minimal thinking and provide clear, obvious choices." }),
    ("mobile_usability",
      { score := 65, assessment := "moderate",
        strengths :=
          [ "Site has mobile viewport configuration",
            "Basic responsive design appears to be implemented" ],
        issues :=
          [ mkIssue "medium"
              "Touch targets may not be optimized for thumb-friendly interaction"
              "mobile interface"
              "Mobile requires different interaction patterns (Chapter 10)" ],
        recommendations := .arr
          [ mkRec "Ensure touch targets are thumb-friendly (44px minimum)"
              "Review and resize all clickable elements for mobile"
              "Chapter 10: Mobile Design" ],
        implementationTasks :=
          [ "[ ] Ensure touch targets are thumb-friendly (44px minimum)",
            "[ ] Prioritize most important content first on mobile",
            "[ ] Remove hover-dependent features for touch interfaces",
            "[ ] Test with actual devices, not just simulators",
            "[ ] Optimize images and minimize load times for mobile" ],
        details := .str "Mobile design should accommodate touch interactions and content prioritization." }),
    ("page_loading",
      { score := 75, assessment := "good",
        strengths :=
          [ "Page appears to load reasonably well",
            "Basic performance optimization seems to be in place" ],
        issues :=
          [ mkIssue "low"
              "Loading speed optimization could preserve more user goodwill"
              "site performance"
              "Preserve user goodwill reservoir (Chapter 11)" ],
        recommendations := .arr
          [ mkRec "Optimize loading speed to preserve goodwill"
              "Implement performance optimizations for faster perceived loading"
              "Chapter 11: Goodwill Reservoir" ],
        implementationTasks :=
          [ "[ ] Optimize images and minimize HTTP requests",
            "[ ] Implement progressive loading for better perceived performance",
            "[ ] Minimize page load times across different connection types",
            "[ ] Use compression and caching strategies" ],
        details := .str "Fast loading preserves user goodwill and supports seamless user experience." }),
    ("accessibility",
      { score := 60, assessment := "moderate",
        strengths :=
          [ "Basic HTML structure appears to use semantic elements",
            "Forms seem to have associated labels" ],
        issues :=
          [ mkIssue "high"
              "May be missing basic accessibility features that help everyone"
              "site accessibility"
              "Accessibility improvements help everyone (Chapter 12)" ],
        recommendations := .arr
          [ mkRec "Implement basic accessibility features first"
              "Add alt text, proper headings, and keyboard navigation"
              "Chapter 12: Accessibility and You" ],
        implementationTasks :=
          [ "[ ] Add alt text to all images",
            "[ ] Use heading tags correctly (H1, H2, H3)",
            "[ ] Associate form labels with fields",
            "[ ] Ensure keyboard accessibility for all interactive elements",
            "[ ] Test with screen reader software" ],
        details := .str "Basic accessibility improvements often improve usability for everyone." }),
    ("error_handling",
      { score := 70, assessment := "moderate",
        strengths := [ "Site appears to have basic error handling in place" ],
        issues :=
          [ mkIssue "medium"
              "Error messages may not provide clear recovery paths"
              "error handling"
              "Help users recover gracefully and preserve goodwill (Chapter 11)" ],
        recommendations := .arr
          [ mkRec "Create helpful error messages with recovery steps"
              "Write clear, specific error messages with actionable solutions"
              "Chapter 11: Common Courtesy" ],
        implementationTasks :=
          [ "[ ] Write clear, helpful error messages",
            "[ ] Provide specific recovery suggestions",
            "[ ] Test error scenarios for user-friendliness",
            "[ ] Ensure errors don\x27t break user workflow" ],
        details := .str "Error handling should be courteous and helpful, preserving user goodwill." }) ]

def krugFallbackTable (id : String) : Option KrugFallbackData :=
  (krugTable.find? fun p => p.1 = id).map (fun p => p.2)

/-- `getKrugBasedRecommendations` (`src/lib/ai-analysis.ts:644-993`):
the fallback `CategoryResult` for a catalog category — the spread
`{...template, ...categoryData}` — or the generic default for an
unknown id. -/
def getKrugBasedRecommendations (t : CategoryTemplate) : UsabilityCategory :=
  match krugFallbackTable t.id with
  | some d =>
      { id := t.id, name := t.name, description := t.description, weight := t.weight,
        score := .val d.score, issues := d.issues, strengths := d.strengths,
        recommendations := d.recommendations,
        implementationTasks := d.implementationTasks,
        details := d.details, assessment := d.assessment }
  | none =>
      { id := t.id, name := t.name, description := t.description, weight := t.weight,
        score := .val 50, assessment := "moderate",
        strengths := [ "Basic functionality appears to be present" ],
        issues :=
          [ mkIssue "medium"
              "This area needs review for Krug\x27s usability principles"
              "general"
              "Don\x27t make users think (Chapter 1)" ],
        recommendations := .arr
          [ mkRec "Review this area for Krug\x27s usability principles"
              "Apply self-evident design and user-centered thinking"
              "Chapter 1: Don\x27t Make Me Think" ],
        implementationTasks :=
          [ "[ ] Audit this area for clarity and user-friendliness",
            "[ ] Apply Krug\x27s principle of self-evident design",
            "[ ] Test with real users for usability issues" ],
        details := .str "This area should follow Krug\x27s fundamental principles of clear, user-friendly design." }

/-! ## Contextual implementation-task derivation -/

/-- The `taskMappings` keyword table of `getTaskMappingForIssue`
(`src/lib/ai-analysis.ts:537-592`), in object-literal insertion order
(the order `Object.entries` iterates). -/
def taskMappingsTable : List (String × List (String × String)) :=
  [ ("navigation",
      [ ("indicators", "[ ] Implement current page indicators in navigation menu"),
        ("location", "[ ] Add \"you are here\" indicators to show current location"),
        ("breadcrumb", "[ ] Add breadcrumb navigation showing path from home"),
        ("persistent", "[ ] Ensure navigation appears consistently on all pages"),
        ("primary", "[ ] Clearly identify primary navigation sections"),
        ("identification", "[ ] Add prominent site logo/ID linking to homepage"),
        ("sections", "[ ] Organize navigation into clear primary sections") ]),
    ("content_hierarchy",
      [ ("scanning", "[ ] Format content with headings and bullet points for scanning"),
        ("hierarchy", "[ ] Make important elements larger and more prominent"),
        ("visual", "[ ] Strengthen visual hierarchy with better contrast and spacing"),
        ("noise", "[ ] Reduce visual clutter and unnecessary elements") ]),
    ("page_names",
      [ ("match", "[ ] Ensure page titles match navigation link text exactly"),
        ("prominent", "[ ] Make page names more prominent and visible"),
        ("breadcrumb", "[ ] Implement breadcrumb trail for page location") ]),
    ("search",
      [ ("location", "[ ] Move search box to expected location (top right)"),
        ("prominent", "[ ] Make search box more visible and obviously searchable"),
        ("conventions", "[ ] Follow standard web search conventions") ]),
    ("forms",
      [ ("thinking", "[ ] Simplify form choices to require less user thinking"),
        ("required", "[ ] Reduce number of required form fields"),
        ("labels", "[ ] Improve form label clarity and association"),
        ("help", "[ ] Add contextual help for complex form fields") ]),
    ("mobile_usability",
      [ ("touch", "[ ] Increase touch target sizes to 44px minimum"),
        ("thumb", "[ ] Optimize interface for thumb-friendly navigation"),
        ("responsive", "[ ] Improve responsive design for mobile devices"),
        ("content", "[ ] Prioritize most important content for mobile") ]),
    ("page_loading",
      [ ("speed", "[ ] Optimize images and minimize HTTP requests"),
        ("performance", "[ ] Implement performance optimizations"),
        ("loading", "[ ] Add progressive loading for better perceived speed") ]),
    ("accessibility",
      [ ("alt", "[ ] Add alt text to all images"),
        ("headings", "[ ] Use proper heading structure (H1, H2, H3)"),
        ("labels", "[ ] Associate form labels with input fields"),
        ("keyboard", "[ ] Ensure full keyboard accessibility"),
        ("skip", "[ ] Add skip navigation links") ]),
    ("error_handling",
      [ ("messages", "[ ] Write clearer, more helpful error messages"),
        ("recovery", "[ ] Provide specific recovery steps for errors"),
        ("graceful", "[ ] Implement graceful error handling") ]) ]

/-- `taskMappings[categoryId]` (JS object property lookup; the literal
has no duplicate keys). -/
def taskMappings (id : String) : Option (List (String × String)) :=
  (taskMappingsTable.find? fun p => p.1 = id).map (fun p => p.2)

/-- The `essentialTasks` table of `getAdditionalTasksForCategory`
(`src/lib/ai-analysis.ts:609-642`).  The score parameter is unused in
the source (`_score`). -/
def getAdditionalTasksForCategory (categoryId : String) (_score : JVal) : List String :=
  match categoryId with
  | "navigation" => [ "[ ] Review navigation structure for clarity and consistency" ]
  | "content_hierarchy" => [ "[ ] Audit content for scannability and visual hierarchy" ]
  | "page_names" => [ "[ ] Review all page titles for consistency" ]
  | "search" => [ "[ ] Test search functionality and placement" ]
  | "forms" => [ "[ ] Conduct form usability review" ]
  | "mobile_usability" => [ "[ ] Test mobile experience on actual devices" ]
  | "page_loading" => [ "[ ] Measure and optimize page loading times" ]
  | "accessibility" => [ "[ ] Conduct basic accessibility audit" ]
  | "error_handling" => [ "[ ] Review and improve error handling workflows" ]
  | _ => []

/-- JS `String.prototype.toLowerCase` as invoked on
`issue.description`: throws `TypeError` unless the receiver is a string
(any truthy non-string lacks the method; the sanitizer guarantees the
receiver is never `null`/`undefined`, which would also throw). -/
def jsToLowerCase : JVal → Except JsError String
  | .str s => .ok (jsToLower s)
  | _ => .error .typeError

/-- `getTaskMappingForIssue` (`src/lib/ai-analysis.ts:536-607`): first
keyword of the category's table occurring in the lower-cased issue
description. -/
def getTaskMappingForIssue (categoryId : String) (issue : Issue) :
    Except JsError (Option String) :=
  match taskMappings categoryId with
  | none => .ok none
  | some mappings => do
      let d ← jsToLowerCase issue.description
      .ok ((mappings.find? fun kv => strContains d kv.1).map (·.2))

/-- First-occurrence deduplication (JS `Array.from(new Set(tasks))`). -/
def dedupKeepFirstAux (seen : List String) : List String → List String
  | [] => []
  | x :: xs =>
      if x ∈ seen then dedupKeepFirstAux seen xs
      else x :: dedupKeepFirstAux (x :: seen) xs

def dedupKeepFirst (l : List String) : List String := dedupKeepFirstAux [] l

/-- `generateContextualTasks` (`src/lib/ai-analysis.ts:514-534`). -/
def generateContextualTasks (categoryId : String) (issues : List Issue)
    (aiCategory : JVal) : Except JsError (List String) := do
  let tasks ← issues.foldlM (fun acc issue => do
      match ← getTaskMappingForIssue categoryId issue with
      | some task => pure (acc ++ [task])
      | none => pure acc) ([] : List String)
  let score := jsOr (jsOptField aiCategory "score") (.num 50)
  let tasks :=
    if tasks.length = 0 ∧ jsLtNum score 60 then
      tasks ++ getAdditionalTasksForCategory categoryId score
    else tasks
  pure ((dedupKeepFirst tasks).take 3)

/-! ## The normalization pipeline (`processAnalysisResult`) -/

/-- Sanitization of a single raw issue entry
(`src/lib/ai-analysis.ts:468-474`).  Member access throws on
`null`/`undefined` entries. -/
def validateIssue (issue : JVal) : Except JsError Issue := do
  let t ← jsGetField issue "type"
  let d ← jsGetField issue "description"
  let el ← jsGetField issue "element"
  let pg ← jsGetField issue "page"
  let kp ← jsGetField issue "krugPrinciple"
  pure { type :=
           match t with
           | .str s => if s = "high" ∨ s = "medium" ∨ s = "low" then s else "medium"
           | _ => "medium",
         description := jsOr d (.str "No description provided"),
         element := jsOrUndefined el,
         page := jsOrUndefined pg,
         krugPrinciple := jsOrUndefined kp }

/-- `(aiCategory.issues || []).map(...)`: falsy `issues` degrades to the
empty array; a truthy non-array has no `.map` method and throws. -/
def validateIssues (v : JVal) : Except JsError (List Issue) := do
  let raw ← jsGetField v "issues"
  match jsOr raw (.arr []) with
  | .arr xs => xs.mapM validateIssue
  | _ => .error .typeError

/-- The element test of the `find` callback:
`cat.id === template.id` (strict equality). -/
def findCategoryLoop (xs : List JVal) (id : String) : Except JsError JVal :=
  match xs with
  | [] => .ok .undefined
  | e :: rest => do
      let eid ← jsGetField e "id"
      if eid = .str id then .ok e else findCategoryLoop rest id

/-- `categories?.find(...)`: `undefined` when `categories` is
`null`/`undefined` (optional chain); iterates when it is an array; any
other value has no `.find` method and throws. -/
def jsFindById : JVal → String → Except JsError JVal
  | .undefined, _ => .ok .undefined
  | .null, _ => .ok .undefined
  | .arr xs, id => findCategoryLoop xs id
  | _, _ => .error .typeError

/-- `aiAnalysis.categories?.find((cat) => cat.id === template.id)`
(`src/lib/ai-analysis.ts:457`). -/
def findAiCategory (a : JVal) (id : String) : Except JsError JVal := do
  let cs ← jsGetField a "categories"
  jsFindById cs id

/-- `AnalysisSettings`.  The `@/types` module is not part of the
sources; the field list follows the spec (aiProvider ∈ {claude, openai},
analysisDepth ∈ {quick, standard, deep}, includeMobile, stealthMode).
Only `includeMobile` influences the normalization pipeline; the API-key
fields are irrelevant to the verified components and omitted. -/
structure AnalysisSettings where
  aiProvider : String
  analysisDepth : String
  includeMobile : Bool
  stealthMode : Bool
deriving DecidableEq, Repr

/-- The per-category body of the `USABILITY_CATEGORIES.map` callback
for a present (truthy) raw category entry
(`src/lib/ai-analysis.ts:464-503`).  Binds are in source evaluation
order; the field reads on `v` cannot throw because `v` is truthy. -/
def buildFromAiCategory (t : CategoryTemplate) (v : JVal) :
    Except JsError UsabilityCategory := do
  let krugFallback := getKrugBasedRecommendations t
  let validatedIssues ← validateIssues v
  let strengthsRaw ← jsGetField v "strengths"
  let validatedStrengths :=
    match strengthsRaw with
    | .arr xs => xs.filterMap fun x =>
        match x with
        | .str s => if 0 < (jsTrim s).length then some s else none
        | _ => none
    | _ => []
  let assessmentRaw ← jsGetField v "assessment"
  let validAssessment :=
    match assessmentRaw with
    | .str s =>
        if s = "excellent" ∨ s = "good" ∨ s = "moderate" ∨ s = "poor" then s
        else "moderate"
    | _ => "moderate"
  let contextualTasks ← generateContextualTasks t.id validatedIssues v
  let scoreRaw ← jsGetField v "score"
  let recRaw ← jsGetField v "recommendations"
  let detailsRaw ← jsGetField v "details"
  pure { id := t.id, name := t.name, description := t.description, weight := t.weight,
         score := normalizeScore scoreRaw,
         issues := validatedIssues,
         -- `validatedStrengths.length > 0 ? validatedStrengths :
         -- krugFallback.strengths || []` (every fallback strengths list
         -- is a nonempty array, so the `|| []` guard is the identity)
         strengths :=
           if 0 < validatedStrengths.length then validatedStrengths
           else krugFallback.strengths,
         recommendations :=
           if jsTruthy recRaw ∧ jsGtNum (jsOptField recRaw "length") 0 then recRaw
           else jsOr krugFallback.recommendations (.arr []),
         implementationTasks :=
           if 0 < contextualTasks.length then contextualTasks else [],
         details := jsOr detailsRaw (jsOr krugFallback.details (.str "")),
         assessment := validAssessment }

/-- One iteration of the `USABILITY_CATEGORIES.map` callback
(`src/lib/ai-analysis.ts:456-462`): a falsy lookup result (no matching
entry) yields the Krug fallback verbatim. -/
def buildCategory (t : CategoryTemplate) (a : JVal) :
    Except JsError UsabilityCategory := do
  let aiCategory ← findAiCategory a t.id
  if jsTruthy aiCategory then buildFromAiCategory t aiCategory
  else pure (getKrugBasedRecommendations t)

/-- `USABILITY_CATEGORIES.map(...)` with JS exception propagation
(the first throwing iteration aborts the map). -/
def buildAll (ts : List CategoryTemplate) (a : JVal) :
    Except JsError (List UsabilityCategory) :=
  match ts with
  | [] => .ok []
  | t :: rest => do
      let c ← buildCategory t a
      let cs ← buildAll rest a
      pure (c :: cs)

/-- `processAnalysisResult` (`src/lib/ai-analysis.ts:455-512`): build
every catalog category, then drop the mobile category when
`includeMobile` is off. -/
def processAnalysisResult (settings : AnalysisSettings) (aiAnalysis : JVal) :
    Except JsError (List UsabilityCategory) := do
  let categories ← buildAll USABILITY_CATEGORIES aiAnalysis
  pure (if settings.includeMobile then categories
        else categories.filter fun c => c.id ≠ "mobile_usability")

/-! ## Overall score (`calculateOverallScore`) -/

def totalWeight (cats : List UsabilityCategory) : Nat :=
  cats.foldl (fun s c => s + c.weight) 0

def weightedScore (cats : List UsabilityCategory) : JNum :=
  cats.foldl (fun s c => jnAdd s (jnMulNat c.score c.weight)) (.val 0)

/-- `calculateOverallScore` (`src/lib/ai-analysis.ts:995-1000`):
`Math.round(weightedScore / totalWeight)`. -/
def calculateOverallScore (cats : List UsabilityCategory) : JNum :=
  jsRound (jnDivNat (weightedScore cats) (totalWeight cats))

/-! ## `JSON.parse`

A fuel-bounded recursive-descent parser for the JSON grammar, producing
`JVal`.  String escapes cover the JSON escape set (`\" \\ \/ \b \f \n
\r \t \uXXXX`, the latter without surrogate-pair recombination — code
points outside `Char`'s range collapse to `Char.ofNat`'s default). -/

def jsonWs : List Char → List Char
  | c :: cs => if c = ' ' ∨ c = '\t' ∨ c = '\n' ∨ c = '\r' then jsonWs cs else c :: cs
  | [] => []

def hexVal (c : Char) : Option Nat :=
  if c.isDigit then some (c.toNat - 48)
  else if 'a' ≤ c ∧ c ≤ 'f' then some (c.toNat - 97 + 10)
  else if 'A' ≤ c ∧ c ≤ 'F' then some (c.toNat - 65 + 10)
  else none

def parseJsonStringAux : List Char → Option (List Char × List Char)
  | [] => none
  | '"' :: rest => some ([], rest)
  | '\\' :: e :: rest =>
      (match e with
       | '"' => (parseJsonStringAux rest).map fun (s, r) => ('"' :: s, r)
       | '\\' => (parseJsonStringAux rest).map fun (s, r) => ('\\' :: s, r)
       | '/' => (parseJsonStringAux rest).map fun (s, r) => ('/' :: s, r)
       | 'b' => (parseJsonStringAux rest).map fun (s, r) => ('\x08' :: s, r)
       | 'f' => (parseJsonStringAux rest).map fun (s, r) => ('\x0c' :: s, r)
       | 'n' => (parseJsonStringAux rest).map fun (s, r) => ('\n' :: s, r)
       | 'r' => (parseJsonStringAux rest).map fun (s, r) => ('\r' :: s, r)
       | 't' => (parseJsonStringAux rest).map fun (s, r) => ('\t' :: s, r)
       | 'u' =>
           match rest with
           | h1 :: h2 :: h3 :: h4 :: rest2 =>
               match hexVal h1, hexVal h2, hexVal h3, hexVal h4 with
               | some a, some b, some c, some d =>
                   (parseJsonStringAux rest2).map fun (s, r) =>
                     (Char.ofNat (((a * 16 + b) * 16 + c) * 16 + d) :: s, r)
               | _, _, _, _ => none
           | _ => none
       | _ => none)
  | c :: rest =>
      if c.toNat < 32 then none
      else (parseJsonStringAux rest).map fun (s, r) => (c :: s, r)

/-- JSON number grammar, lenient about what follows (the caller rejects
unconsumed input): `-? int (. digits)? ([eE][+-]? digits)?`. -/
def parseJsonNumber (cs : List Char) : Option (Rat × List Char) :=
  let (sgn, cs1) : (Rat × List Char) :=
    match cs with
    | '-' :: r => (-1, r)
    | r => (1, r)
  let ipOpt : Option (Nat × List Char) :=
    match cs1 with
    | '0' :: r => some (0, r)
    | _ =>
        let (ds, r) := takeDigits cs1
        if ds.isEmpty then none else some (digitsToNat ds, r)
  match ipOpt with
  | none => none
  | some (ip, rest) =>
      let (frac, rest2) : (Rat × List Char) :=
        match rest with
        | '.' :: r =>
            let (fs, r2) := takeDigits r
            if fs.isEmpty then (0, rest)
            else ((digitsToNat fs : Rat) / (10 : Rat) ^ fs.length, r2)
        | _ => (0, rest)
      match parseExpPart rest2 with
      | some (e, rest3) => some (sgn * applyExp ((ip : Rat) + frac) e, rest3)
      | none => some (sgn * ((ip : Rat) + frac), rest2)

mutual

def parseJsonVal : Nat → List Char → Option (JVal × List Char)
  | 0, _ => none
  | fuel + 1, cs =>
      match jsonWs cs with
      | 'n' :: 'u' :: 'l' :: 'l' :: rest => some (.null, rest)
      | 't' :: 'r' :: 'u' :: 'e' :: rest => some (.bool true, rest)
      | 'f' :: 'a' :: 'l' :: 's' :: 'e' :: rest => some (.bool false, rest)
      | '"' :: rest =>
          (parseJsonStringAux rest).map fun (s, r) => (.str (String.mk s), r)
      | '[' :: rest =>
          (match jsonWs rest with
           | ']' :: r => some (.arr [], r)
           | other => (parseJsonArrItems fuel other).map fun (xs, r) => (.arr xs, r))
      | '{' :: rest =>
          (match jsonWs rest with
           | '}' :: r => some (.obj [], r)
           | other => (parseJsonObjItems fuel other).map fun (kvs, r) => (.obj kvs, r))
      | rest => (parseJsonNumber rest).map fun (q, r) => (.num q, r)

def parseJsonArrItems : Nat → List Char → Option (List JVal × List Char)
  | 0, _ => none
  | fuel + 1, cs =>
      match parseJsonVal fuel cs with
      | none => none
      | some (v, rest) =>
          match jsonWs rest with
          | ',' :: r =>
              (parseJsonArrItems fuel r).map fun (xs, r2) => (v :: xs, r2)
          | ']' :: r => some ([v], r)
          | _ => none

def parseJsonObjItems : Nat → List Char → Option (List (String × JVal) × List Char)
  | 0, _ => none
  | fuel + 1, cs =>
      match jsonWs cs with
      | '"' :: rest =>
          match parseJsonStringAux rest with
          | none => none
          | some (k, rest2) =>
              match jsonWs rest2 with
              | ':' :: rest3 =>
                  match parseJsonVal fuel rest3 with
                  | none => none
                  | some (v, rest4) =>
                      match jsonWs rest4 with
                      | ',' :: r =>
                          (parseJsonObjItems fuel r).map fun (kvs, r2) =>
                            ((String.mk k, v) :: kvs, r2)
                      | '}' :: r => some ([(String.mk k, v)], r)
                      | _ => none
              | _ => none
      | _ => none

end

/-- `JSON.parse`: parse a complete value, rejecting trailing input. -/
def parseJson (s : String) : Option JVal :=
  match parseJsonVal (s.length + 1) s.toList with
  | some (v, rest) => if (jsonWs rest).isEmpty then some v else none
  | none => none

/-! ## The Claude provider adapter (`getClaudeAnalysis`) -/

/-- The regex extraction `content.match(/\x7b[\s\S]*\x7d/)`: throws
unless the receiver is a string; on a string it matches greedily from
the first opening brace to the last closing brace after it. -/
def jsMatchBraces : JVal → Except JsError (Option String)
  | .str s =>
      let cs := s.toList
      let pre := cs.takeWhile (· ≠ '{')
      let sufRev := cs.reverse.takeWhile (· ≠ '}')
      let i := pre.length
      let j := cs.length - 1 - sufRev.length
      if i < cs.length ∧ sufRev.length < cs.length ∧ i < j then
        .ok (some (String.mk ((cs.drop i).take (j - i + 1))))
      else .ok none
  | _ => .error .typeError

/-- The inner parse block of `getClaudeAnalysis`
(`src/lib/ai-analysis.ts:382-393`): `data.content[0].text`, the brace
regex, and `JSON.parse`.  Every failure is caught by the surrounding
`catch` and rethrown as `Failed to parse Claude response`, so the
individual error kinds are not distinguished. -/
def extractClaudeJson (data : JVal) : Except JsError JVal := do
  let c ← jsGetField data "content"
  let c0 ← jsIndex c 0
  let content ← jsGetField c0 "text"
  match ← jsMatchBraces content with
  | some s =>
      match parseJson s with
      | some j => pure j
      | none => .error .typeError
  | none => .error .typeError

/-- The outcome of one `fetch` attempt against the Claude API for a
given model, as observed by `getClaudeAnalysis`: a non-ok HTTP status
with its body text, an ok response with its parsed JSON body, or a
transport-level rejection with its error message. -/
inductive ModelOutcome where
  | httpError (status : Nat) (body : String)
  | success (data : JVal)
  | netThrow (msg : String)
deriving DecidableEq, Repr

/-- The ordered model list (`src/lib/ai-analysis.ts:333-338`). -/
def claudeModels : List String :=
  [ "claude-3-5-sonnet-20241022",
    "claude-3-5-sonnet-20240620",
    "claude-3-sonnet-20240229",
    "claude-3-haiku-20240307" ]

/-- The outer `catch` test (`src/lib/ai-analysis.ts:400`): the loop
continues to the next model iff the caught error's message contains
`not found` or `404`. -/
def shouldTryNextModel (msg : String) : Bool :=
  strContains msg "not found" || strContains msg "404"

/-- The model-fallback loop of `getClaudeAnalysis`
(`src/lib/ai-analysis.ts:331-408`), instrumented with the list of
models actually attempted (second component).  The first component is
the JS result: `.ok` the parsed analysis object, `.error` the thrown
error's message. -/
def getClaudeAnalysisAux (env : String → ModelOutcome) :
    List String → Option String → Except String JVal × List String
  | [], lastErr =>
      (.error ("All Claude models failed. Last error: " ++ lastErr.getD "undefined"), [])
  | m :: rest, _lastErr =>
      match env m with
      | .httpError status body =>
          -- `if (response.status === 404) { lastError = ...; continue }`
          if status = 404 then
            let (r, tr) := getClaudeAnalysisAux env rest (some ("Model " ++ m ++ " not found"))
            (r, m :: tr)
          else
            -- `throw new Error(...)`, caught by the iteration's catch
            let msg := "Claude API error: " ++ toString status ++ " - " ++ body
            if shouldTryNextModel msg then
              let (r, tr) := getClaudeAnalysisAux env rest (some msg)
              (r, m :: tr)
            else (.error msg, [m])
      | .netThrow msg =>
          if shouldTryNextModel msg then
            let (r, tr) := getClaudeAnalysisAux env rest (some msg)
            (r, m :: tr)
          else (.error msg, [m])
      | .success data =>
          match extractClaudeJson data with
          | .ok j => (.ok j, [m])
          | .error _ =>
              let msg := "Failed to parse Claude response"
              if shouldTryNextModel msg then
                let (r, tr) := getClaudeAnalysisAux env rest (some msg)
                (r, m :: tr)
              else (.error msg, [m])

def getClaudeAnalysis (env : String → ModelOutcome) : Except String JVal × List String :=
  getClaudeAnalysisAux env claudeModels none

/-! ## The history store (`HistoryManager`)

`localStorage` holds the history as a JSON string under one key.  The
serialization round-trip is modelled as the identity on well-formed
history arrays (no claim concerns corrupted stored text); storage
operations that throw are modelled by the two failure flags. -/

/-- `AnalysisResult` as consumed by `HistoryManager.saveToHistory`: the
fields the store reads.  Timestamps are epoch milliseconds
(`new Date(x).getTime()` round-trips).  The remaining report payload
(categories, crawl data, summary recommendations) is carried verbatim
inside `resultData` in the source and never inspected by the store; it
is omitted here. -/
structure AnalysisResult where
  url : String
  timestamp : Int
  overallScore : Int
  highIssues : Nat
  mediumIssues : Nat
  lowIssues : Nat
  aiProvider : String
  analysisDepth : String
deriving DecidableEq, Repr

/-- `HistoryItem` (the stored entry shape built by `saveToHistory`). -/
structure HistoryItem where
  id : String
  url : String
  timestamp : Int
  overallScore : Int
  highIssues : Nat
  mediumIssues : Nat
  lowIssues : Nat
  aiProvider : String
  analysisDepth : String
  resultData : AnalysisResult
deriving DecidableEq, Repr

/-- The history-item literal of `saveToHistory` (`id: Date.now()
.toString()`; `now` is the clock reading at save time). -/
def mkHistoryItem (r : AnalysisResult) (now : Int) : HistoryItem :=
  { id := toString now, url := r.url, timestamp := r.timestamp,
    overallScore := r.overallScore, highIssues := r.highIssues,
    mediumIssues := r.mediumIssues, lowIssues := r.lowIssues,
    aiProvider := r.aiProvider, analysisDepth := r.analysisDepth,
    resultData := r }

/-- The browser storage: the value under the `analysisHistory` key
(`none` = key absent) and the failure flags (`readFails`: `getItem`
throws; `writeFails`: `setItem`/`removeItem` throw). -/
structure Storage where
  data : Option (List HistoryItem)
  readFails : Bool
  writeFails : Bool
deriving DecidableEq, Repr

def MAX_HISTORY_ITEMS : Nat := 50

def storageGetItem (st : Storage) : Except Unit (Option (List HistoryItem)) :=
  if st.readFails then .error () else .ok st.data

def storageSetItem (st : Storage) (l : List HistoryItem) : Except Unit Storage :=
  if st.writeFails then .error () else .ok { st with data := some l }

def storageRemoveItem (st : Storage) : Except Unit Storage :=
  if st.writeFails then .error () else .ok { st with data := none }

/-- Stable insertion into a descending-by-timestamp list. -/
def jsSortInsert (a : HistoryItem) : List HistoryItem → List HistoryItem
  | [] => [a]
  | b :: l => if b.timestamp ≤ a.timestamp then a :: b :: l else b :: jsSortInsert a l

/-- `sort((a, b) => b.timestamp.getTime() - a.timestamp.getTime())`:
modern JS `Array.prototype.sort` is stable, and all stable sorts under
a total preorder agree, so stable insertion sort is an exact model. -/
def jsSortDesc : List HistoryItem → List HistoryItem
  | [] => []
  | a :: l => jsSortInsert a (jsSortDesc l)

/-- `getHistory` before its `catch` (the `.map` re-wrapping the
timestamp through `new Date` is the identity on epoch milliseconds). -/
def getHistoryE (st : Storage) : Except Unit (List HistoryItem) := do
  match ← storageGetItem st with
  | none => pure []
  | some items => pure (jsSortDesc items)

/-- `HistoryManager.getHistory`: storage failures degrade to `[]`. -/
def getHistory (st : Storage) : List HistoryItem :=
  match getHistoryE st with
  | .ok l => l
  | .error _ => []

/-- JS `Array.prototype.findIndex` (its `-1` result is modelled as
`none`; the source only compares the index against `-1` and uses it for
an element write). -/
def jsFindIndex {α : Type} (p : α → Bool) : List α → Option Nat
  | [] => none
  | x :: xs => if p x then some 0 else (jsFindIndex p xs).map (· + 1)

/-- `HistoryManager.saveToHistory` before its `catch`. -/
def saveToHistoryE (r : AnalysisResult) (now : Int) (st : Storage) :
    Except Unit Storage := do
  let existingHistory := getHistory st
  let historyItem := mkHistoryItem r now
  let existingIndex := jsFindIndex (fun item =>
    decide (item.url = r.url ∧ (item.timestamp - r.timestamp).natAbs < 60000))
    existingHistory
  let newHistory :=
    match existingIndex with
    | some i => existingHistory.set i historyItem
    | none => historyItem :: existingHistory
  let newHistory :=
    if MAX_HISTORY_ITEMS < newHistory.length then newHistory.take MAX_HISTORY_ITEMS
    else newHistory
  storageSetItem st newHistory

/-- `HistoryManager.saveToHistory`: failures are caught and logged, the
state is left as it was at the point of the throw (only the final
`setItem` mutates it). -/
def saveToHistory (r : AnalysisResult) (now : Int) (st : Storage) : Storage :=
  match saveToHistoryE r now st with
  | .ok st' => st'
  | .error _ => st

/-- `HistoryManager.deleteFromHistory` before its `catch`. -/
def deleteFromHistoryE (id : String) (st : Storage) :
    Except Unit (Bool × Storage) := do
  let history := getHistory st
  let newHistory := history.filter fun item => decide ¬(item.id = id)
  if newHistory.length = history.length then
    pure (false, st)
  else do
    let st' ← storageSetItem st newHistory
    pure (true, st')

/-- `HistoryManager.deleteFromHistory`: failures degrade to `false`. -/
def deleteFromHistory (id : String) (st : Storage) : Bool × Storage :=
  match deleteFromHistoryE id st with
  | .ok res => res
  | .error _ => (false, st)

/-- `HistoryManager.clearAllHistory`: `removeItem`, failures degrade to
`false`. -/
def clearAllHistory (st : Storage) : Bool × Storage :=
  match storageRemoveItem st with
  | .ok st' => (true, st')
  | .error _ => (false, st)

/-! ## Generic helpers for reasoning about the embedded JS code -/

instance {ε α : Type} [DecidableEq ε] [DecidableEq α] : DecidableEq (Except ε α)
  | .ok a, .ok b =>
      if h : a = b then .isTrue (by rw [h])
      else .isFalse (fun he => by cases he; exact h rfl)
  | .error a, .error b =>
      if h : a = b then .isTrue (by rw [h])
      else .isFalse (fun he => by cases he; exact h rfl)
  | .ok _, .error _ => .isFalse (fun he => by cases he)
  | .error _, .ok _ => .isFalse (fun he => by cases he)

theorem bind_eq_ok {ε α β : Type} {x : Except ε α} {f : α → Except ε β} {b : β}
    (h : x >>= f = .ok b) : ∃ a, x = .ok a ∧ f a = .ok b := by
  cases x with
  | error e => exact absurd h (by simp [Bind.bind, Except.bind])
  | ok a => exact ⟨a, rfl, by simpa [Bind.bind, Except.bind] using h⟩

theorem ok_bind {ε α β : Type} (a : α) (f : α → Except ε β) :
    ((.ok a : Except ε α) >>= f) = f a := rfl

theorem pure_eq_ok {ε α : Type} {a b : α}
    (h : (pure a : Except ε α) = .ok b) : a = b := by
  simpa [pure, Except.pure] using h

/-- Both branches of `getKrugBasedRecommendations` keep the template's
identity fields. -/
theorem getKrug_fields (t : CategoryTemplate) :
    (getKrugBasedRecommendations t).id = t.id ∧
    (getKrugBasedRecommendations t).weight = t.weight := by
  unfold getKrugBasedRecommendations
  cases krugFallbackTable t.id <;> exact ⟨rfl, rfl⟩

/-- `buildFromAiCategory` keeps the template's identity fields. -/
theorem buildFromAiCategory_fields {t : CategoryTemplate} {v : JVal}
    {c : UsabilityCategory} (h : buildFromAiCategory t v = .ok c) :
    c.id = t.id ∧ c.weight = t.weight := by
  unfold buildFromAiCategory at h
  obtain ⟨is, _, h⟩ := bind_eq_ok h
  obtain ⟨sr, _, h⟩ := bind_eq_ok h
  obtain ⟨ar, _, h⟩ := bind_eq_ok h
  obtain ⟨ts, _, h⟩ := bind_eq_ok h
  obtain ⟨sc, _, h⟩ := bind_eq_ok h
  obtain ⟨rr, _, h⟩ := bind_eq_ok h
  obtain ⟨dr, _, h⟩ := bind_eq_ok h
  cases h
  exact ⟨rfl, rfl⟩

/-- A present category's emitted score is `normalizeScore` of its raw
`score` field. -/
theorem buildFromAiCategory_score {t : CategoryTemplate} {v : JVal}
    {c : UsabilityCategory} {sv : JVal} (h : buildFromAiCategory t v = .ok c)
    (hsv : jsGetField v "score" = .ok sv) : c.score = normalizeScore sv := by
  unfold buildFromAiCategory at h
  obtain ⟨is, _, h⟩ := bind_eq_ok h
  obtain ⟨sr, _, h⟩ := bind_eq_ok h
  obtain ⟨ar, _, h⟩ := bind_eq_ok h
  obtain ⟨ts, _, h⟩ := bind_eq_ok h
  obtain ⟨sc, hsc, h⟩ := bind_eq_ok h
  obtain ⟨rr, _, h⟩ := bind_eq_ok h
  obtain ⟨dr, _, h⟩ := bind_eq_ok h
  cases pure_eq_ok h
  rw [hsv] at hsc
  cases hsc
  rfl

/-- `buildCategory` keeps the template's identity fields. -/
theorem buildCategory_fields {t : CategoryTemplate} {a : JVal}
    {c : UsabilityCategory} (h : buildCategory t a = .ok c) :
    c.id = t.id ∧ c.weight = t.weight := by
  unfold buildCategory at h
  obtain ⟨v, _, h⟩ := bind_eq_ok h
  by_cases hv : jsTruthy v = true
  · rw [if_pos hv] at h
    exact buildFromAiCategory_fields h
  · rw [if_neg hv] at h
    cases h
    exact getKrug_fields t

/-- Shape of a successful `buildAll`: a pairing of templates with their
built categories. -/
theorem buildAll_ok_pairs {ts : List CategoryTemplate} {a : JVal}
    {out : List UsabilityCategory} (h : buildAll ts a = .ok out) :
    ∃ pairs : List (CategoryTemplate × UsabilityCategory),
      pairs.map Prod.fst = ts ∧ pairs.map Prod.snd = out ∧
      ∀ p ∈ pairs, buildCategory p.1 a = .ok p.2 := by
  induction ts generalizing out with
  | nil =>
      cases h
      exact ⟨[], rfl, rfl, by simp⟩
  | cons t rest ih =>
      unfold buildAll at h
      obtain ⟨c, hc, h⟩ := bind_eq_ok h
      obtain ⟨cs, hcs, h⟩ := bind_eq_ok h
      cases pure_eq_ok h
      obtain ⟨pairs, h1, h2, h3⟩ := ih hcs
      refine ⟨(t, c) :: pairs, by simp [h1], by simp [h2], ?_⟩
      intro p hp
      rcases List.mem_cons.mp hp with rfl | hp
      · exact hc
      · exact h3 p hp

/-- Membership form of `buildAll_ok_pairs`. -/
theorem buildAll_ok_mem {ts : List CategoryTemplate} {a : JVal}
    {out : List UsabilityCategory} (h : buildAll ts a = .ok out)
    {t : CategoryTemplate} (ht : t ∈ ts) {c : UsabilityCategory}
    (hc : buildCategory t a = .ok c) : c ∈ out := by
  induction ts generalizing out with
  | nil => cases ht
  | cons t' rest ih =>
      unfold buildAll at h
      obtain ⟨c', hc', h⟩ := bind_eq_ok h
      obtain ⟨cs, hcs, h⟩ := bind_eq_ok h
      cases pure_eq_ok h
      rcases List.mem_cons.mp ht with rfl | ht
      · rw [hc] at hc'
        cases hc'
        exact List.mem_cons_self _ _
      · exact List.mem_cons_of_mem _ (ih hcs ht)

/-- Destructor for a successful `processAnalysisResult`. -/
theorem processAnalysisResult_ok {settings : AnalysisSettings} {a : JVal}
    {out : List UsabilityCategory}
    (h : processAnalysisResult settings a = .ok out) :
    ∃ cats, buildAll USABILITY_CATEGORIES a = .ok cats ∧
      out = (if settings.includeMobile then cats
             else cats.filter fun c => decide (c.id ≠ "mobile_usability")) := by
  unfold processAnalysisResult at h
  obtain ⟨cats, hc, h⟩ := bind_eq_ok h
  cases pure_eq_ok h
  exact ⟨cats, hc, by split <;> simp_all⟩

/-! ## C3 — totality of the normalization pipeline -/

/-- C3.  The spec claims the pipeline is a total function over every
syntactically valid JSON object, degrading malformed fields to
defaults.  The code is not total: a `null` entry inside a present
category's `issues` array reaches `issue.type` in the sanitizer's map
callback and throws a `TypeError` (`src/lib/ai-analysis.ts:469`), which
propagates out of `processAnalysisResult`.  This theorem evaluates the
pipeline at that failing input. -/
theorem C3_null_issue_throws :
    processAnalysisResult ⟨"claude", "standard", true, false⟩
      (JVal.obj [("categories", JVal.arr
        [JVal.obj [("id", JVal.str "navigation"),
                   ("issues", JVal.arr [JVal.null])]])]) =
      .error .typeError := by decide

/-! ## C1 — missing categories take the fallback table entry -/

/-- C1 (corrected).  For every raw response and every catalog category
with no matching entry in the raw `categories` array (the lookup yields
`undefined`), the pipeline emits that category's fallback
`CategoryResult` verbatim, and the emitted category appears in the
report whenever it survives the mobile filter.  The claim's further
assertion that every fallback assessment is `moderate` is wrong: it
holds for eight of the nine catalog categories, while the
`page_loading` fallback carries assessment `good`
(see `C1_counterexample`). -/
theorem C1_missing_category_fallback :
    (∀ (a : JVal) (t : CategoryTemplate),
       findAiCategory a t.id = .ok .undefined →
       buildCategory t a = .ok (getKrugBasedRecommendations t)) ∧
    (∀ (settings : AnalysisSettings) (a : JVal)
       (out : List UsabilityCategory) (t : CategoryTemplate),
       t ∈ USABILITY_CATEGORIES →
       processAnalysisResult settings a = .ok out →
       findAiCategory a t.id = .ok .undefined →
       (settings.includeMobile = true ∨ t.id ≠ "mobile_usability") →
       getKrugBasedRecommendations t ∈ out) ∧
    (∀ t ∈ USABILITY_CATEGORIES, t.id ≠ "page_loading" →
       (getKrugBasedRecommendations t).assessment = "moderate") ∧
    ((getKrugBasedRecommendations
        ⟨"page_loading", "Page Loading & Performance",
         "Fast loading times and performance optimization", 8⟩).assessment = "good") := by
  refine ⟨?_, ?_, ?_, by decide⟩
  · intro a t h
    unfold buildCategory
    rw [h, ok_bind]
    rfl
  · intro settings a out t ht hp hf hm
    obtain ⟨cats, hb, hout⟩ := processAnalysisResult_ok hp
    have hmem : getKrugBasedRecommendations t ∈ cats := by
      apply buildAll_ok_mem hb ht
      unfold buildCategory
      rw [hf, ok_bind]
      rfl
    subst hout
    rcases hm with hm | hm
    · rw [hm]
      simpa using hmem
    · by_cases hmob : settings.includeMobile
      · simpa [hmob] using hmem
      · simp only [if_neg hmob]
        refine List.mem_filter.mpr ⟨hmem, ?_⟩
        simp [(getKrug_fields t).1, hm]
  · intro t ht hne
    fin_cases ht <;> simp_all <;> decide

/-- C1 counterexample: at the raw response `{}` (no categories at all),
the pipeline emits exactly the nine fallback entries, and the emitted
`page_loading` entry has assessment `good`, not `moderate`. -/
theorem C1_counterexample :
    processAnalysisResult ⟨"claude", "standard", true, false⟩ (JVal.obj []) =
      .ok (USABILITY_CATEGORIES.map getKrugBasedRecommendations) ∧
    ((USABILITY_CATEGORIES.map getKrugBasedRecommendations).filter
        (fun c => decide (c.id = "page_loading"))).map
      (fun c => c.assessment) = ["good"] ∧
    ("good" : String) ≠ "moderate" :=
  ⟨by decide, by decide, by decide⟩

/-- Witness for `C1_missing_category_fallback`: the raw response `{}`
misses the `navigation` category, and the pipeline's entry for it is
the fallback verbatim. -/
theorem C1_missing_category_fallback_witness :
    findAiCategory (JVal.obj []) "navigation" = .ok .undefined ∧
    buildCategory
      ⟨"navigation", "Navigation Clarity",
       "How easy it is to find and use navigation elements", 20⟩ (JVal.obj []) =
      .ok (getKrugBasedRecommendations
        ⟨"navigation", "Navigation Clarity",
         "How easy it is to find and use navigation elements", 20⟩) :=
  ⟨by decide, C1_missing_category_fallback.1 (JVal.obj []) _ (by decide)⟩

/-! ## C2 — score normalization -/

/-- C2 (corrected).  The score expression is
`Math.max(0, Math.min(100, aiCategory.score || 50))`: a *truthy* numeric
raw score is clamped to `[0, 100]`; every falsy raw score — missing,
`null`, `false`, the empty string, and in particular the number `0` —
is replaced by the default 50 before clamping (so raw 0 normalizes to
50, not 0 as the claim states, see `C2_counterexample`); a truthy
non-numeric raw score passes through `ToNumber`, so a non-numeric
string yields NaN rather than the claimed 50.  The last conjunct ties
the expression to the pipeline: a present category's emitted score is
exactly `normalizeScore` of its raw `score` field. -/
theorem C2_score_normalization :
    (∀ q : Rat, q ≠ 0 →
       normalizeScore (.num q) = .val (max 0 (min 100 q))) ∧
    (normalizeScore (.num 0) = .val 50 ∧ normalizeScore .undefined = .val 50 ∧
     normalizeScore .null = .val 50 ∧ normalizeScore (.bool false) = .val 50 ∧
     normalizeScore (.str "") = .val 50) ∧
    (∀ s : String, s ≠ "" →
       normalizeScore (.str s) =
         jnMaxConst 0 (jnMinConst 100 (jsStringToNumber s))) ∧
    normalizeScore (.str "abc") = .nan ∧
    (∀ (t : CategoryTemplate) (v : JVal) (c : UsabilityCategory) (sv : JVal),
       buildFromAiCategory t v = .ok c → jsGetField v "score" = .ok sv →
       c.score = normalizeScore sv) := by
  refine ⟨?_, by decide, ?_, by decide, ?_⟩
  · intro q hq
    have ht : jsTruthy (.num q) = true := by simp [jsTruthy, hq]
    simp [normalizeScore, jsOr, ht, toNumber, jnMinConst, jnMaxConst]
  · intro s hs
    have ht : jsTruthy (.str s) = true := by simp [jsTruthy, hs]
    simp [normalizeScore, jsOr, ht, toNumber]
  · intro t v c sv h hsv
    exact buildFromAiCategory_score h hsv

/-- C2 counterexample: a raw navigation entry with `score: 0` is
normalized to 50, while the claim requires raw 0 to normalize to 0. -/
theorem C2_counterexample :
    (((processAnalysisResult ⟨"claude", "standard", true, false⟩
        (JVal.obj [("categories", JVal.arr [JVal.obj
          [("id", JVal.str "navigation"),
           ("score", JVal.num 0)]])])).toOption.getD []).map
      (fun c => (c.id, c.score))).take 1 = [("navigation", JNum.val 50)] ∧
    normalizeScore (JVal.num 0) = JNum.val 50 ∧
    JNum.val 50 ≠ JNum.val 0 :=
  ⟨by decide, by decide, by decide⟩

/-- Witness for `C2_score_normalization`: raw 150 (truthy, numeric)
clamps to 100; the non-numeric string `abc` goes through `ToNumber`;
a present entry with `score: 150` gets exactly the normalized score. -/
theorem C2_score_normalization_witness :
    ((150 : Rat) ≠ 0 ∧
     normalizeScore (.num 150) = .val (max 0 (min 100 150))) ∧
    (("abc" : String) ≠ "" ∧
     normalizeScore (.str "abc") =
       jnMaxConst 0 (jnMinConst 100 (jsStringToNumber "abc"))) ∧
    (buildFromAiCategory
        ⟨"navigation", "Navigation Clarity",
         "How easy it is to find and use navigation elements", 20⟩
        (JVal.obj [("score", JVal.num 150)]) =
      .ok { getKrugBasedRecommendations
              ⟨"navigation", "Navigation Clarity",
               "How easy it is to find and use navigation elements", 20⟩ with
            score := JNum.val 100, issues := [], implementationTasks := [] } ∧
     ({ getKrugBasedRecommendations
          ⟨"navigation", "Navigation Clarity",
           "How easy it is to find and use navigation elements", 20⟩ with
        score := JNum.val 100, issues := [],
        implementationTasks := ([] : List String) } : UsabilityCategory).score =
       normalizeScore (JVal.num 150)) :=
  ⟨⟨by decide, C2_score_normalization.1 150 (by decide)⟩,
   ⟨by decide, C2_score_normalization.2.2.1 "abc" (by decide)⟩,
   by decide,
   C2_score_normalization.2.2.2.2
     ⟨"navigation", "Navigation Clarity",
      "How easy it is to find and use navigation elements", 20⟩
     (JVal.obj [("score", JVal.num 150)])
     { getKrugBasedRecommendations
         ⟨"navigation", "Navigation Clarity",
          "How easy it is to find and use navigation elements", 20⟩ with
       score := JNum.val 100, issues := [], implementationTasks := [] }
     (JVal.num 150) (by decide) (by decide)⟩

/-! ## C4 — the overall score is the weighted mean, rounded -/

/-- Spec-side definition (refinement target), following the spec's
words: `overallScore = round(Σ(score_i × weight_i) / Σ(weight_i))` over
the included categories, with round-half-up (the tie-breaking JS
`Math.round` uses). -/
def overallScoreSpec (l : List (Rat × Nat)) : Int :=
  ⌊(l.map fun p => p.1 * (p.2 : Rat)).sum / (((l.map Prod.snd).sum : Nat) : Rat) + 1 / 2⌋

theorem totalWeight_eq_sum (cats : List UsabilityCategory) :
    totalWeight cats = (cats.map fun c => c.weight).sum := by
  have step : ∀ (l : List UsabilityCategory) (n : Nat),
      l.foldl (fun s c => s + c.weight) n = n + (l.map fun c => c.weight).sum := by
    intro l
    induction l with
    | nil => intro n; simp
    | cons c l ih => intro n; simp [List.foldl_cons, ih, Nat.add_assoc]
  simpa [totalWeight] using step cats 0

theorem weightedScore_eq_sum {cats : List UsabilityCategory} {l : List (Rat × Nat)}
    (h : List.Forall₂ (fun c p => c.score = JNum.val p.1 ∧ c.weight = p.2) cats l) :
    ∀ init : Rat,
      cats.foldl (fun s c => jnAdd s (jnMulNat c.score c.weight)) (.val init) =
        .val (init + (l.map fun p => p.1 * (p.2 : Rat)).sum) := by
  induction h with
  | nil => intro init; simp
  | @cons c p cats' l' hcp _ ih =>
      intro init
      obtain ⟨hs, hw⟩ := hcp
      rw [List.foldl_cons]
      have hstep : jnAdd (JNum.val init) (jnMulNat c.score c.weight) =
          JNum.val (init + p.1 * (p.2 : Rat)) := by
        rw [hs, hw]; rfl
      rw [hstep, ih (init + p.1 * (p.2 : Rat)), List.map_cons, List.sum_cons]
      exact congrArg JNum.val (by ring)

theorem forall₂_weights {cats : List UsabilityCategory} {l : List (Rat × Nat)}
    (h : List.Forall₂ (fun c p => c.score = JNum.val p.1 ∧ c.weight = p.2) cats l) :
    (cats.map fun c => c.weight) = l.map Prod.snd := by
  induction h with
  | nil => rfl
  | cons hcp _ ih => simp [ih, hcp.2]

/-- C4 (confirmed).  `calculateOverallScore` computes exactly the
spec's weighted mean over the categories it is given — the weights in
the denominator are exactly those of the list's members — and the
spec's concrete example evaluates to 64. -/
theorem C4_overall_weighted_mean :
    (∀ (cats : List UsabilityCategory) (l : List (Rat × Nat)),
       List.Forall₂ (fun c p => c.score = JNum.val p.1 ∧ c.weight = p.2) cats l →
       0 < totalWeight cats →
       calculateOverallScore cats = .val (overallScoreSpec l)) ∧
    calculateOverallScore
      [ { id := "A", name := "A", description := "", weight := 20,
          score := .val 80, issues := [], strengths := [],
          recommendations := .arr [], implementationTasks := [],
          details := .str "", assessment := "good" },
        { id := "B", name := "B", description := "", weight := 80,
          score := .val 60, issues := [], strengths := [],
          recommendations := .arr [], implementationTasks := [],
          details := .str "", assessment := "good" } ] = .val 64 ∧
    overallScoreSpec [(80, 20), (60, 80)] = 64 := by
  refine ⟨?_, by decide, by decide⟩
  intro cats l h hw
  have hws := weightedScore_eq_sum h 0
  have hwt : totalWeight cats = (l.map Prod.snd).sum := by
    rw [totalWeight_eq_sum, forall₂_weights h]
  have hne : totalWeight cats ≠ 0 := Nat.pos_iff_ne_zero.mp hw
  unfold calculateOverallScore weightedScore
  rw [hws, jnDivNat, if_neg hne, hwt]
  simp [jsRound, overallScoreSpec]

/-- Witness for `C4_overall_weighted_mean`: the concrete
two-category report {A: 80×20, B: 60×80}. -/
theorem C4_overall_weighted_mean_witness :
    calculateOverallScore
      [ { id := "A", name := "A", description := "", weight := 20,
          score := .val 80, issues := [], strengths := [],
          recommendations := .arr [], implementationTasks := [],
          details := .str "", assessment := "good" },
        { id := "B", name := "B", description := "", weight := 80,
          score := .val 60, issues := [], strengths := [],
          recommendations := .arr [], implementationTasks := [],
          details := .str "", assessment := "good" } ] =
      .val (overallScoreSpec [(80, 20), (60, 80)]) :=
  C4_overall_weighted_mean.1 _ [(80, 20), (60, 80)]
    (.cons ⟨rfl, rfl⟩ (.cons ⟨rfl, rfl⟩ .nil)) (by decide)

/-! ## C5 — the mobile category is present iff `includeMobile` -/

/-- C5 (confirmed).  The mobile category appears in the pipeline's
output iff `settings.includeMobile`; with `includeMobile = false` the
output is exactly the `includeMobile = true` output with the
`mobile_usability` category (and only it) filtered out, so its weight
also leaves the `overallScore` denominator (`calculateOverallScore`
folds weights over exactly the output list, `C4_overall_weighted_mean`). -/
theorem C5_mobile_iff :
    ∀ (settings : AnalysisSettings) (a : JVal) (out : List UsabilityCategory),
      processAnalysisResult settings a = .ok out →
      ((∃ c ∈ out, c.id = "mobile_usability") ↔ settings.includeMobile = true) ∧
      (settings.includeMobile = false →
        ∀ out', processAnalysisResult { settings with includeMobile := true } a = .ok out' →
          out = out'.filter fun c => decide (c.id ≠ "mobile_usability")) := by
  intro settings a out hp
  obtain ⟨cats, hb, hout⟩ := processAnalysisResult_ok hp
  have hid : cats.map (fun c => c.id) = USABILITY_CATEGORIES.map (fun t => t.id) := by
    obtain ⟨pairs, hp1, hp2, hp3⟩ := buildAll_ok_pairs hb
    rw [← hp1, ← hp2, List.map_map, List.map_map]
    refine List.map_congr_left ?_
    intro p hpmem
    exact (buildCategory_fields (hp3 p hpmem)).1
  have hmem : ∃ c ∈ cats, c.id = "mobile_usability" := by
    have : "mobile_usability" ∈ cats.map (fun c => c.id) := by
      rw [hid]; decide
    obtain ⟨c, hc, hcid⟩ := List.mem_map.mp this
    exact ⟨c, hc, hcid⟩
  constructor
  · by_cases hmob : settings.includeMobile
    · rw [hout, if_pos hmob]
      simp only [hmob, iff_true]
      exact hmem
    · rw [hout, if_neg hmob]
      constructor
      · rintro ⟨c, hc, hcid⟩
        have := (List.mem_filter.mp hc).2
        simp [hcid] at this
      · intro h
        exact absurd h hmob
  · intro hmf out' hp'
    obtain ⟨cats', hb', hout'⟩ := processAnalysisResult_ok hp'
    rw [hb] at hb'
    cases hb'
    rw [hout, if_neg (by simp [hmf]), hout']
    simp

/-- Witness for `C5_mobile_iff`: with mobile enabled and the raw
response `{}`, the mobile fallback category is in the report. -/
theorem C5_mobile_iff_witness :
    (∃ c ∈ (USABILITY_CATEGORIES.map getKrugBasedRecommendations),
       c.id = "mobile_usability") ↔
      (⟨"claude", "standard", true, false⟩ : AnalysisSettings).includeMobile = true :=
  (C5_mobile_iff ⟨"claude", "standard", true, false⟩ (JVal.obj [])
    (USABILITY_CATEGORIES.map getKrugBasedRecommendations) (by decide)).1

/-! ## C7 — implementation-task derivation -/

theorem dedupKeepFirstAux_nodup :
    ∀ (l seen : List String), (dedupKeepFirstAux seen l).Nodup ∧
      ∀ x ∈ dedupKeepFirstAux seen l, x ∉ seen := by
  intro l
  induction l with
  | nil => intro seen; exact ⟨List.nodup_nil, by simp [dedupKeepFirstAux]⟩
  | cons x xs ih =>
      intro seen
      by_cases hx : x ∈ seen
      · simpa [dedupKeepFirstAux, hx] using ih seen
      · constructor
        · simp only [dedupKeepFirstAux, if_neg hx]
          refine List.nodup_cons.mpr ⟨?_, (ih (x :: seen)).1⟩
          intro hmem
          exact (ih (x :: seen)).2 x hmem (List.mem_cons_self x seen)
        · intro y hy
          simp only [dedupKeepFirstAux, if_neg hx] at hy
          rcases List.mem_cons.mp hy with rfl | hy
          · exact hx
          · intro hyseen
            exact (ih (x :: seen)).2 y hy (List.mem_cons_of_mem _ hyseen)

/-- C7 (confirmed).  Derived implementation-task lists are capped at 3
and duplicate-free; the derivation reads nothing of the raw category
entry except its `score` field (in particular it is deterministic and
ignores a provider-supplied `implementationTasks` array, which the
pipeline never reads at all); and a present category's emitted
`implementationTasks` is exactly the derivation's output on its
sanitized issues. -/
theorem C7_tasks :
    (∀ (categoryId : String) (issues : List Issue) (aiCategory : JVal)
       (ts : List String),
       generateContextualTasks categoryId issues aiCategory = .ok ts →
       ts.length ≤ 3 ∧ ts.Nodup) ∧
    (∀ (categoryId : String) (issues : List Issue) (v v' : JVal),
       jsOptField v "score" = jsOptField v' "score" →
       generateContextualTasks categoryId issues v =
         generateContextualTasks categoryId issues v') ∧
    (∀ (t : CategoryTemplate) (v : JVal) (c : UsabilityCategory),
       buildFromAiCategory t v = .ok c →
       ∃ issues, validateIssues v = .ok issues ∧
         generateContextualTasks t.id issues v = .ok c.implementationTasks) := by
  refine ⟨?_, ?_, ?_⟩
  · intro categoryId issues aiCategory ts h
    unfold generateContextualTasks at h
    obtain ⟨tasks, _, h⟩ := bind_eq_ok h
    cases pure_eq_ok h
    constructor
    · rw [List.length_take]
      exact Nat.min_le_left _ _
    · exact List.Nodup.sublist (List.take_sublist _ _)
        (dedupKeepFirstAux_nodup _ []).1
  · intro categoryId issues v v' h
    unfold generateContextualTasks
    rw [h]
  · intro t v c h
    unfold buildFromAiCategory at h
    obtain ⟨is, his, h⟩ := bind_eq_ok h
    obtain ⟨sr, _, h⟩ := bind_eq_ok h
    obtain ⟨ar, _, h⟩ := bind_eq_ok h
    obtain ⟨ts, hts, h⟩ := bind_eq_ok h
    obtain ⟨sc, _, h⟩ := bind_eq_ok h
    obtain ⟨rr, _, h⟩ := bind_eq_ok h
    obtain ⟨dr, _, h⟩ := bind_eq_ok h
    cases pure_eq_ok h
    refine ⟨is, his, ?_⟩
    rw [hts]
    congr 1
    cases ts <;> simp

/-- Witness for `C7_tasks`: the keyword `breadcrumb` inside a
navigation issue description maps to its table task, the list is within
the cap and duplicate-free, and the raw entry's `implementationTasks`
field is invisible to the derivation. -/
theorem C7_tasks_witness :
    generateContextualTasks "navigation"
      [⟨"medium", JVal.str "Missing breadcrumb trail", JVal.undefined, JVal.undefined,
        JVal.undefined⟩] (JVal.obj []) =
      .ok ["[ ] Add breadcrumb navigation showing path from home"] ∧
    (["[ ] Add breadcrumb navigation showing path from home"].length ≤ 3 ∧
     ["[ ] Add breadcrumb navigation showing path from home"].Nodup) ∧
    generateContextualTasks "navigation"
      [⟨"medium", JVal.str "Missing breadcrumb trail", JVal.undefined, JVal.undefined,
        JVal.undefined⟩]
      (JVal.obj [("implementationTasks", JVal.arr [JVal.str "provider task"])]) =
      generateContextualTasks "navigation"
        [⟨"medium", JVal.str "Missing breadcrumb trail", JVal.undefined, JVal.undefined,
          JVal.undefined⟩] (JVal.obj []) :=
  ⟨by decide,
   C7_tasks.1 "navigation"
     [⟨"medium", JVal.str "Missing breadcrumb trail", JVal.undefined, JVal.undefined,
       JVal.undefined⟩] (JVal.obj [])
     ["[ ] Add breadcrumb navigation showing path from home"] (by decide),
   C7_tasks.2.1 "navigation"
     [⟨"medium", JVal.str "Missing breadcrumb trail", JVal.undefined, JVal.undefined,
       JVal.undefined⟩]
     (JVal.obj [("implementationTasks", JVal.arr [JVal.str "provider task"])])
     (JVal.obj []) (by decide)⟩

/-! ## C8 — Claude model-fallback control flow -/

/-- Environment for the C8 counterexample: the first model fails with
HTTP 500 and a body whose text happens to contain `not found`; every
other model succeeds with a parseable response. -/
def c8Env : String → ModelOutcome := fun m =>
  if m = "claude-3-5-sonnet-20241022" then .httpError 500 "model endpoint not found"
  else .success (JVal.obj [("content", JVal.arr
    [JVal.obj [("text", JVal.str "\x7b\"categories\":[]\x7d")]])])

/-- C8 counterexample: under `c8Env` the first model's failure is a
non-404 HTTP error (500), yet the adapter goes on to attempt the second
model (because the composed error message contains `not found`),
contradicting the claim that any non-404 HTTP error aborts without
attempting further models. -/
theorem C8_counterexample :
    c8Env "claude-3-5-sonnet-20241022" =
      .httpError 500 "model endpoint not found" ∧
    (500 : Nat) ≠ 404 ∧
    (getClaudeAnalysis c8Env).2 =
      ["claude-3-5-sonnet-20241022", "claude-3-5-sonnet-20240620"] ∧
    (getClaudeAnalysis c8Env).2 ≠ ["claude-3-5-sonnet-20241022"] ∧
    (getClaudeAnalysis c8Env).1 = .ok (JVal.obj [("categories", JVal.arr [])]) :=
  ⟨by decide, by decide, by decide, by decide, by decide⟩

/-- Definitional unfolding of one loop iteration. -/
theorem claudeAux_cons (env : String → ModelOutcome) (m : String)
    (rest : List String) (le : Option String) :
    getClaudeAnalysisAux env (m :: rest) le =
      match env m with
      | .httpError status body =>
          if status = 404 then
            let (r, tr) := getClaudeAnalysisAux env rest
              (some ("Model " ++ m ++ " not found"))
            (r, m :: tr)
          else
            let msg := "Claude API error: " ++ toString status ++ " - " ++ body
            if shouldTryNextModel msg then
              let (r, tr) := getClaudeAnalysisAux env rest (some msg)
              (r, m :: tr)
            else (.error msg, [m])
      | .netThrow msg =>
          if shouldTryNextModel msg then
            let (r, tr) := getClaudeAnalysisAux env rest (some msg)
            (r, m :: tr)
          else (.error msg, [m])
      | .success data =>
          match extractClaudeJson data with
          | .ok j => (.ok j, [m])
          | .error _ =>
              let msg := "Failed to parse Claude response"
              if shouldTryNextModel msg then
                let (r, tr) := getClaudeAnalysisAux env rest (some msg)
                (r, m :: tr)
              else (.error msg, [m]) := rfl

/-- C8 (corrected).  Models are attempted strictly in list order (the
attempted list is always a prefix of the model list); an HTTP 404 moves
on to the next model; a non-404 HTTP error aborts immediately with the
composed message `Claude API error: {status} - {body}` *unless* that
message happens to contain `not found` or `404` (e.g. in the body
text), in which case the next model is tried
(see `C8_counterexample`); an unparseable success response always
aborts immediately with `Failed to parse Claude response`; a parseable
success response returns its extracted JSON without touching further
models. -/
theorem C8_model_fallback :
    (∀ (env : String → ModelOutcome) (ms : List String) (le : Option String),
       ∃ k, (getClaudeAnalysisAux env ms le).2 = ms.take k) ∧
    (∀ (env : String → ModelOutcome) (m : String) (rest : List String)
       (le : Option String) (body : String),
       env m = .httpError 404 body →
       (getClaudeAnalysisAux env (m :: rest) le).2 =
         m :: (getClaudeAnalysisAux env rest
                (some ("Model " ++ m ++ " not found"))).2) ∧
    (∀ (env : String → ModelOutcome) (m : String) (rest : List String)
       (le : Option String) (status : Nat) (body : String),
       env m = .httpError status body → status ≠ 404 →
       shouldTryNextModel
         ("Claude API error: " ++ toString status ++ " - " ++ body) = false →
       getClaudeAnalysisAux env (m :: rest) le =
         (.error ("Claude API error: " ++ toString status ++ " - " ++ body), [m])) ∧
    (∀ (env : String → ModelOutcome) (m : String) (rest : List String)
       (le : Option String) (data : JVal) (e : JsError),
       env m = .success data → extractClaudeJson data = .error e →
       getClaudeAnalysisAux env (m :: rest) le =
         (.error "Failed to parse Claude response", [m])) ∧
    (∀ (env : String → ModelOutcome) (m : String) (rest : List String)
       (le : Option String) (data : JVal) (j : JVal),
       env m = .success data → extractClaudeJson data = .ok j →
       getClaudeAnalysisAux env (m :: rest) le = (.ok j, [m])) := by
  refine ⟨?_, ?_, ?_, ?_, ?_⟩
  · intro env ms
    induction ms with
    | nil => intro le; exact ⟨0, rfl⟩
    | cons m rest ih =>
        intro le
        unfold getClaudeAnalysisAux
        cases henv : env m with
        | httpError status body =>
            by_cases h404 : status = 404
            · obtain ⟨k, hk⟩ := ih (some ("Model " ++ m ++ " not found"))
              exact ⟨k + 1, by simp [h404, hk]⟩
            · by_cases htry : shouldTryNextModel
                ("Claude API error: " ++ toString status ++ " - " ++ body)
              · obtain ⟨k, hk⟩ := ih
                  (some ("Claude API error: " ++ toString status ++ " - " ++ body))
                exact ⟨k + 1, by simp [h404, htry, hk]⟩
              · exact ⟨1, by simp [h404, htry]⟩
        | success data =>
            cases hext : extractClaudeJson data with
            | ok j => exact ⟨1, by simp [hext]⟩
            | error e =>
                by_cases htry : shouldTryNextModel "Failed to parse Claude response"
                · obtain ⟨k, hk⟩ := ih (some "Failed to parse Claude response")
                  exact ⟨k + 1, by simp [hext, htry, hk]⟩
                · exact ⟨1, by simp [hext, htry]⟩
        | netThrow msg =>
            by_cases htry : shouldTryNextModel msg
            · obtain ⟨k, hk⟩ := ih (some msg)
              exact ⟨k + 1, by simp [htry, hk]⟩
            · exact ⟨1, by simp [htry]⟩
  · intro env m rest le body henv
    rw [claudeAux_cons, henv]
    simp
  · intro env m rest le status body henv h404 htry
    rw [claudeAux_cons, henv]
    simp [h404, htry]
  · intro env m rest le data e henv hext
    rw [claudeAux_cons, henv]
    simp only [hext]
    rw [if_neg (by decide)]
  · intro env m rest le data j henv hext
    rw [claudeAux_cons, henv]
    simp [hext]

/-- Witness for `C8_model_fallback`: a 502 whose body mentions neither
`not found` nor `404` aborts after the first model. -/
theorem C8_model_fallback_witness :
    ((fun _ => ModelOutcome.httpError 502 "bad gateway") :
        String → ModelOutcome) "claude-3-5-sonnet-20241022" =
      .httpError 502 "bad gateway" ∧
    (502 : Nat) ≠ 404 ∧
    shouldTryNextModel "Claude API error: 502 - bad gateway" = false ∧
    getClaudeAnalysisAux (fun _ => ModelOutcome.httpError 502 "bad gateway")
        claudeModels none =
      (.error "Claude API error: 502 - bad gateway",
       ["claude-3-5-sonnet-20241022"]) :=
  ⟨rfl, by decide, by decide, by
    have := C8_model_fallback.2.2.1
      (fun _ => ModelOutcome.httpError 502 "bad gateway")
      "claude-3-5-sonnet-20241022"
      ["claude-3-5-sonnet-20240620", "claude-3-sonnet-20240229",
       "claude-3-haiku-20240307"] none 502 "bad gateway" rfl (by decide) (by decide)
    exact this⟩

/-! ## C9 — storage failures never propagate -/

/-- C9 (corrected).  No history operation propagates a storage failure:
`saveToHistory` always returns a state (any internal throw is caught,
leaving the state as it was), failing reads make `getHistory` return
`[]`, and `deleteFromHistory`/`clearAllHistory` return `false` under a
failing read or write.  The claim's parenthetical that a failing save
is a no-op only holds when the *write* fails: when only the read fails,
`getHistory` (which catches its own error) reports an empty history and
the subsequent successful write replaces the whole store with just the
new entry (see `C9_counterexample`). -/
theorem C9_storage_failures :
    (∀ (r : AnalysisResult) (now : Int) (st : Storage) (e : Unit),
       saveToHistoryE r now st = .error e → saveToHistory r now st = st) ∧
    (∀ (r : AnalysisResult) (now : Int) (st : Storage),
       st.writeFails = true → saveToHistory r now st = st) ∧
    (∀ st : Storage, st.readFails = true → getHistory st = []) ∧
    (∀ (r : AnalysisResult) (now : Int) (st : Storage),
       st.readFails = true → st.writeFails = false →
       saveToHistory r now st = { st with data := some [mkHistoryItem r now] }) ∧
    (∀ (id : String) (st : Storage),
       st.readFails = true ∨ st.writeFails = true →
       deleteFromHistory id st = (false, st)) ∧
    (∀ st : Storage, st.writeFails = true → clearAllHistory st = (false, st)) := by
  have hget : ∀ st : Storage, st.readFails = true → getHistory st = [] := by
    intro st h
    simp [getHistory, getHistoryE, storageGetItem, h, Bind.bind, Except.bind]
  refine ⟨?_, ?_, hget, ?_, ?_, ?_⟩
  · intro r now st e h
    simp [saveToHistory, h]
  · intro r now st h
    have : saveToHistoryE r now st = .error () := by
      simp [saveToHistoryE, storageSetItem, h]
    simp [saveToHistory, this]
  · intro r now st hr hw
    simp [saveToHistory, saveToHistoryE, storageSetItem, hw, hget st hr,
      jsFindIndex, MAX_HISTORY_ITEMS]
  · intro id st h
    rcases h with hr | hw
    · have h0 := hget st hr
      simp [deleteFromHistory, deleteFromHistoryE, h0, Bind.bind, Except.bind,
        pure, Except.pure]
    · have hset : ∀ l, storageSetItem st l = .error () := fun l => by
        simp [storageSetItem, hw]
      by_cases hall : ∀ a ∈ getHistory st, ¬a.id = id
      · simp [deleteFromHistory, deleteFromHistoryE, hall, hset, pure,
          Except.pure, Bind.bind, Except.bind]
        rw [if_pos hall]
      · simp [deleteFromHistory, deleteFromHistoryE, hall, hset, Bind.bind,
          Except.bind]
  · intro st h
    simp [clearAllHistory, storageRemoveItem, h]

/-- C9 counterexample: a store holding one entry whose read throws but
whose write succeeds — the save returns normally but replaces the store
with just the new entry instead of leaving it unchanged. -/
theorem C9_counterexample :
    (saveToHistory ⟨"https://b.example", 70000, 80, 0, 0, 0, "claude", "quick"⟩ 2
        ⟨some [mkHistoryItem
          ⟨"https://a.example", 1000, 70, 0, 0, 0, "claude", "quick"⟩ 1],
         true, false⟩).data =
      some [mkHistoryItem
        ⟨"https://b.example", 70000, 80, 0, 0, 0, "claude", "quick"⟩ 2] ∧
    saveToHistory ⟨"https://b.example", 70000, 80, 0, 0, 0, "claude", "quick"⟩ 2
        ⟨some [mkHistoryItem
          ⟨"https://a.example", 1000, 70, 0, 0, 0, "claude", "quick"⟩ 1],
         true, false⟩ ≠
      ⟨some [mkHistoryItem
        ⟨"https://a.example", 1000, 70, 0, 0, 0, "claude", "quick"⟩ 1],
       true, false⟩ :=
  ⟨by decide, by decide⟩

/-- Witness for `C9_storage_failures`: a concrete failing store for
each operation. -/
theorem C9_storage_failures_witness :
    ((⟨some [], true, true⟩ : Storage).writeFails = true ∧
     saveToHistory ⟨"https://a.example", 1000, 70, 0, 0, 0, "claude", "quick"⟩ 5
       ⟨some [], true, true⟩ = ⟨some [], true, true⟩) ∧
    ((⟨some [], true, true⟩ : Storage).readFails = true ∧
     getHistory ⟨some [], true, true⟩ = []) ∧
    deleteFromHistory "1" ⟨some [], true, true⟩ = (false, ⟨some [], true, true⟩) ∧
    clearAllHistory ⟨some [], true, true⟩ = (false, ⟨some [], true, true⟩) :=
  ⟨⟨rfl, C9_storage_failures.2.1 _ 5 ⟨some [], true, true⟩ rfl⟩,
   ⟨rfl, C9_storage_failures.2.2.1 ⟨some [], true, true⟩ rfl⟩,
   C9_storage_failures.2.2.2.2.1 "1" ⟨some [], true, true⟩ (Or.inl rfl),
   C9_storage_failures.2.2.2.2.2 ⟨some [], true, true⟩ rfl⟩

/-! ## C6 — history dedup within 60 s and the 50-entry cap -/

/-- Repeated `saveToHistory` calls (the clock reading paired with each
report). -/
def saveAll (rs : List (AnalysisResult × Int)) (st : Storage) : Storage :=
  rs.foldl (fun s p => saveToHistory p.1 p.2 s) st

theorem jsSortInsert_of_head (a : HistoryItem) (l : List HistoryItem)
    (h : ∀ b ∈ l, b.timestamp ≤ a.timestamp) : jsSortInsert a l = a :: l := by
  cases l with
  | nil => rfl
  | cons b l => simp [jsSortInsert, h b (List.mem_cons_self b l)]

theorem jsSortDesc_of_sorted : ∀ l : List HistoryItem,
    l.Pairwise (fun x y => y.timestamp ≤ x.timestamp) → jsSortDesc l = l := by
  intro l
  induction l with
  | nil => intro _; rfl
  | cons a l ih =>
      intro h
      show jsSortInsert a (jsSortDesc l) = a :: l
      rw [ih (List.pairwise_cons.mp h).2]
      exact jsSortInsert_of_head a l (List.pairwise_cons.mp h).1

theorem jsFindIndex_eq_none {α : Type} (p : α → Bool) :
    ∀ l : List α, (∀ x ∈ l, p x = false) → jsFindIndex p l = none := by
  intro l
  induction l with
  | nil => intro _; rfl
  | cons a l ih =>
      intro h
      simp [jsFindIndex, h a (List.mem_cons_self a l),
        ih fun x hx => h x (List.mem_cons_of_mem a hx)]

theorem getHistory_healthy (L : List HistoryItem)
    (h : L.Pairwise fun x y => y.timestamp ≤ x.timestamp) :
    getHistory ⟨some L, false, false⟩ = L := by
  simp [getHistory, getHistoryE, storageGetItem, Bind.bind, Except.bind,
    pure, Except.pure, jsSortDesc_of_sorted L h]

/-- One `saveToHistory` on a healthy, sorted store holding no entry
that dedups against the incoming report: prepend and cap. -/
theorem saveToHistory_step (r : AnalysisResult) (now : Int)
    (L : List HistoryItem)
    (hsorted : L.Pairwise fun x y => y.timestamp ≤ x.timestamp)
    (hfresh : ∀ it ∈ L, it.url ≠ r.url) :
    saveToHistory r now ⟨some L, false, false⟩ =
      ⟨some ((mkHistoryItem r now :: L).take 50), false, false⟩ := by
  have hfind : jsFindIndex (fun item =>
      decide (item.url = r.url ∧ (item.timestamp - r.timestamp).natAbs < 60000))
      L = none := by
    apply jsFindIndex_eq_none
    intro it hit
    simp [hfresh it hit]
  have hcap : (if MAX_HISTORY_ITEMS < (mkHistoryItem r now :: L).length then
        (mkHistoryItem r now :: L).take MAX_HISTORY_ITEMS
      else (mkHistoryItem r now :: L)) =
      (mkHistoryItem r now :: L).take 50 := by
    by_cases hlen : MAX_HISTORY_ITEMS < (mkHistoryItem r now :: L).length
    · rw [if_pos hlen]; rfl
    · rw [if_neg hlen]
      exact (List.take_of_length_le (Nat.le_of_not_lt hlen)).symm
  unfold saveToHistory saveToHistoryE
  simp only [getHistory_healthy L hsorted, hfind, hcap]
  simp [storageSetItem]

theorem take_append_take {α : Type} (A B : List α) (n : Nat) :
    (A ++ B.take n).take n = (A ++ B).take n := by
  rw [List.take_append_eq_append_take, List.take_append_eq_append_take,
    List.take_take]
  congr 1
  rw [Nat.min_eq_left (Nat.sub_le n A.length)]

theorem storageSetItem_ok {st : Storage} {l : List HistoryItem} {st' : Storage}
    (h : storageSetItem st l = .ok st') : st' = { st with data := some l } := by
  unfold storageSetItem at h
  split at h
  · cases h
  · exact (Except.ok.inj h).symm

theorem cap_le (M : List HistoryItem) :
    (if MAX_HISTORY_ITEMS < M.length then M.take MAX_HISTORY_ITEMS
     else M).length ≤ 50 := by
  by_cases h : MAX_HISTORY_ITEMS < M.length
  · rw [if_pos h, List.length_take]
    exact Nat.min_le_left _ _
  · rw [if_neg h]
    exact Nat.le_of_not_lt h

/-- Saving a batch of reports with strictly increasing timestamps and
pairwise distinct URLs onto a healthy store that is sorted, within the
cap, and disjoint from the batch: the result is the reversed batch
prepended to the store, capped at 50. -/
theorem saveAll_inv :
    ∀ (rs : List (AnalysisResult × Int)) (L : List HistoryItem),
      L.length ≤ 50 →
      L.Pairwise (fun x y => y.timestamp < x.timestamp) →
      (∀ p ∈ rs, ∀ it ∈ L, it.url ≠ p.1.url ∧ it.timestamp < p.1.timestamp) →
      rs.Pairwise (fun p q => p.1.timestamp < q.1.timestamp ∧ p.1.url ≠ q.1.url) →
      saveAll rs ⟨some L, false, false⟩ =
        ⟨some (((rs.map fun p => mkHistoryItem p.1 p.2).reverse ++ L).take 50),
         false, false⟩ := by
  intro rs
  induction rs with
  | nil =>
      intro L hlen _ _ _
      simp [saveAll, List.take_of_length_le hlen]
  | cons p rs' ih =>
      intro L hlen hsorted hfresh hpw
      obtain ⟨r, now⟩ := p
      have hsorted' : L.Pairwise fun x y => y.timestamp ≤ x.timestamp :=
        hsorted.imp fun h => le_of_lt h
      have hfresh1 : ∀ it ∈ L, it.url ≠ r.url := fun it hit =>
        (hfresh (r, now) (List.mem_cons_self _ _) it hit).1
      have hstep := saveToHistory_step r now L hsorted' hfresh1
      have hsub : List.Sublist ((mkHistoryItem r now :: L).take 50)
          (mkHistoryItem r now :: L) := List.take_sublist _ _
      have hpwhead := List.pairwise_cons.mp hpw
      have ihL := ih ((mkHistoryItem r now :: L).take 50)
        (by rw [List.length_take]; exact Nat.min_le_left _ _)
        (List.Pairwise.sublist hsub (List.pairwise_cons.mpr
          ⟨fun it hit => (hfresh (r, now) (List.mem_cons_self _ _) it hit).2,
           hsorted⟩))
        (by
          intro q hq it hit
          rcases List.mem_cons.mp (hsub.mem hit) with rfl | hitL
          · exact ⟨(hpwhead.1 q hq).2, (hpwhead.1 q hq).1⟩
          · exact hfresh q (List.mem_cons_of_mem _ hq) it hitL)
        hpwhead.2
      show saveAll rs' (saveToHistory r now ⟨some L, false, false⟩) = _
      rw [hstep, ihL]
      refine congrArg (fun l => Storage.mk (some l) false false) ?_
      rw [take_append_take]
      simp [List.append_assoc]

/-- C6 (confirmed).  (a) Two saves of the same URL within 60 seconds
starting from an empty store leave exactly the second entry (replace,
not append).  (b) Whenever a save writes, the written list holds at
most 50 entries.  (c) Saving 51 reports with distinct URLs and
increasing timestamps onto an empty store leaves exactly the 50 newest
entries, the oldest (first-saved) URL evicted. -/
theorem C6_history_dedup_cap :
    (∀ (r1 r2 : AnalysisResult) (now1 now2 : Int),
       r1.url = r2.url → (r1.timestamp - r2.timestamp).natAbs < 60000 →
       saveToHistory r2 now2 (saveToHistory r1 now1 ⟨some [], false, false⟩) =
         ⟨some [mkHistoryItem r2 now2], false, false⟩) ∧
    (∀ (r : AnalysisResult) (now : Int) (st st' : Storage),
       saveToHistoryE r now st = .ok st' →
       ∀ l, st'.data = some l → l.length ≤ 50) ∧
    (∀ rs : List (AnalysisResult × Int),
       rs.Pairwise (fun p q => p.1.timestamp < q.1.timestamp ∧
         p.1.url ≠ q.1.url) →
       ∀ (r0 : AnalysisResult × Int) (rest : List (AnalysisResult × Int)),
         rs = r0 :: rest → rest.length = 50 →
         saveAll rs ⟨some [], false, false⟩ =
           ⟨some ((rest.map fun p => mkHistoryItem p.1 p.2).reverse),
            false, false⟩ ∧
         ((rest.map fun p => mkHistoryItem p.1 p.2).reverse).length = 50 ∧
         ∀ it ∈ (rest.map fun p => mkHistoryItem p.1 p.2).reverse,
           it.url ≠ r0.1.url) := by
  refine ⟨?_, ?_, ?_⟩
  · intro r1 r2 now1 now2 hurl hts
    have h1 : saveToHistory r1 now1 ⟨some [], false, false⟩ =
        ⟨some [mkHistoryItem r1 now1], false, false⟩ := by
      simpa using saveToHistory_step r1 now1 [] (by simp) (by simp)
    rw [h1]
    have hget : getHistory ⟨some [mkHistoryItem r1 now1], false, false⟩ =
        [mkHistoryItem r1 now1] := getHistory_healthy _ (by simp)
    have hfind : jsFindIndex (fun item =>
        decide (item.url = r2.url ∧
          (item.timestamp - r2.timestamp).natAbs < 60000))
        [mkHistoryItem r1 now1] = some 0 := by
      simp [jsFindIndex, mkHistoryItem, hurl, hts]
    unfold saveToHistory saveToHistoryE
    simp only [hget, hfind]
    simp [storageSetItem, MAX_HISTORY_ITEMS, Bind.bind, Except.bind]
  · intro r now st st' h l hl
    unfold saveToHistoryE at h
    cases storageSetItem_ok h
    have hsome : some _ = some l := hl
    cases Option.some.inj hsome
    exact cap_le _
  · intro rs hpw r0 rest hrs hlen
    subst hrs
    have hinv := saveAll_inv (r0 :: rest) [] (by simp) (by simp)
      (by intro p _ it hit; cases hit) hpw
    have hmaplen : ((rest.map fun p => mkHistoryItem p.1 p.2).reverse).length =
        50 := by simp [hlen]
    have hsimp : (((r0 :: rest).map fun p => mkHistoryItem p.1 p.2).reverse ++
          ([] : List HistoryItem)).take 50 =
        (rest.map fun p => mkHistoryItem p.1 p.2).reverse := by
      rw [List.append_nil, List.map_cons, List.reverse_cons, ← hmaplen]
      exact List.take_left _ _
    refine ⟨?_, hmaplen, ?_⟩
    · rw [hinv]
      exact congrArg (fun l => Storage.mk (some l) false false) hsimp
    · intro it hit
      obtain ⟨q, hq, rfl⟩ := List.mem_map.mp (List.mem_reverse.mp hit)
      exact Ne.symm ((List.pairwise_cons.mp hpw).1 q hq).2

/-- 51 reports with distinct URLs and strictly increasing timestamps. -/
def c6Reports : List (AnalysisResult × Int) :=
  (List.range 51).map fun i =>
    (⟨"https://u" ++ toString i ++ ".example", (i : Int) * 100000, 70, 0, 0, 0,
      "claude", "quick"⟩, (i : Int))

/-- Witness for `C6_history_dedup_cap`: the dedup pair and the concrete
51-report batch. -/
theorem C6_history_dedup_cap_witness :
    saveToHistory ⟨"https://a.example", 50000, 80, 0, 0, 0, "claude", "quick"⟩ 9
        (saveToHistory
          ⟨"https://a.example", 1000, 70, 0, 0, 0, "claude", "quick"⟩ 7
          ⟨some [], false, false⟩) =
      ⟨some [mkHistoryItem
        ⟨"https://a.example", 50000, 80, 0, 0, 0, "claude", "quick"⟩ 9],
       false, false⟩ ∧
    saveAll c6Reports ⟨some [], false, false⟩ =
      ⟨some (((c6Reports.drop 1).map fun p => mkHistoryItem p.1 p.2).reverse),
       false, false⟩ ∧
    (((c6Reports.drop 1).map fun p => mkHistoryItem p.1 p.2).reverse).length =
      50 := by
  refine ⟨C6_history_dedup_cap.1 _ _ 7 9 rfl (by decide), ?_, ?_⟩
  · exact (C6_history_dedup_cap.2.2 c6Reports (by decide)
      (⟨"https://u0.example", 0, 70, 0, 0, 0, "claude", "quick"⟩, 0)
      (c6Reports.drop 1) (by decide) (by decide)).1
  · exact (C6_history_dedup_cap.2.2 c6Reports (by decide)
      (⟨"https://u0.example", 0, 70, 0, 0, 0, "claude", "quick"⟩, 0)
      (c6Reports.drop 1) (by decide) (by decide)).2.1

/-! ## C10 — the overall score is an integer in [0, 100] -/

theorem normalizeScore_num_bound (q : Rat) :
    ∃ x, normalizeScore (.num q) = .val x ∧ 0 ≤ x ∧ x ≤ 100 := by
  by_cases hq : q = 0
  · refine ⟨50, ?_, ?_, ?_⟩
    · norm_num [hq, normalizeScore, jsOr, jsTruthy, toNumber, jnMinConst,
        jnMaxConst]
    · norm_num
    · norm_num
  · refine ⟨max 0 (min 100 q), ?_, le_max_left _ _, ?_⟩
    · have ht : jsTruthy (.num q) = true := by simp [jsTruthy, hq]
      simp [normalizeScore, jsOr, ht, toNumber, jnMinConst, jnMaxConst]
    · exact max_le (by norm_num) (min_le_left _ _)

theorem getKrug_score_bound (t : CategoryTemplate) :
    ∃ q, (getKrugBasedRecommendations t).score = .val q ∧ 0 ≤ q ∧ q ≤ 100 := by
  have htab : ∀ p ∈ krugTable, 0 ≤ p.2.score ∧ p.2.score ≤ 100 := by decide
  unfold getKrugBasedRecommendations
  cases hf : krugFallbackTable t.id with
  | none => exact ⟨50, rfl, by norm_num, by norm_num⟩
  | some d =>
      refine ⟨d.score, rfl, ?_⟩
      unfold krugFallbackTable at hf
      cases hfind : krugTable.find? fun p => p.1 = t.id with
      | none => rw [hfind] at hf; cases hf
      | some pr =>
          rw [hfind] at hf
          cases Option.some.inj hf
          exact htab pr (List.mem_of_find?_eq_some hfind)

theorem buildCategory_score_bound {t : CategoryTemplate} {a : JVal}
    {c : UsabilityCategory} (h : buildCategory t a = .ok c)
    (hsc : ∀ v, findAiCategory a t.id = .ok v → jsTruthy v = true →
      (∃ q : Rat, jsGetField v "score" = .ok (.num q)) ∨
        jsGetField v "score" = .ok .undefined) :
    ∃ q, c.score = .val q ∧ 0 ≤ q ∧ q ≤ 100 := by
  unfold buildCategory at h
  obtain ⟨v, hv, h⟩ := bind_eq_ok h
  by_cases htv : jsTruthy v = true
  · rw [if_pos htv] at h
    rcases hsc v hv htv with ⟨q, hq⟩ | hq
    · rw [buildFromAiCategory_score h hq]
      exact normalizeScore_num_bound q
    · rw [buildFromAiCategory_score h hq]
      exact ⟨50, rfl, by norm_num, by norm_num⟩
  · rw [if_neg htv] at h
    cases pure_eq_ok h
    exact getKrug_score_bound t

theorem weighted_fold_bound :
    ∀ (cats : List UsabilityCategory),
      (∀ c ∈ cats, ∃ q, c.score = .val q ∧ 0 ≤ q ∧ q ≤ 100) →
      ∀ init : Rat,
        ∃ W, cats.foldl (fun s c => jnAdd s (jnMulNat c.score c.weight))
            (.val init) = .val W ∧
          init ≤ W ∧
          W ≤ init + 100 * (((cats.map fun c => c.weight).sum : Nat) : Rat) := by
  intro cats
  induction cats with
  | nil => intro _ init; exact ⟨init, rfl, le_refl _, by simp⟩
  | cons c cs ih =>
      intro h init
      obtain ⟨q, hq, hq0, hq100⟩ := h c (List.mem_cons_self _ _)
      have hstep : jnAdd (JNum.val init) (jnMulNat c.score c.weight) =
          .val (init + q * (c.weight : Rat)) := by rw [hq]; rfl
      obtain ⟨W, hW, hWlo, hWhi⟩ :=
        ih (fun x hx => h x (List.mem_cons_of_mem _ hx)) (init + q * c.weight)
      have hw0 : (0 : Rat) ≤ (c.weight : Rat) := Nat.cast_nonneg _
      refine ⟨W, ?_, ?_, ?_⟩
      · rw [List.foldl_cons, hstep]
        exact hW
      · have : init ≤ init + q * (c.weight : Rat) :=
          le_add_of_nonneg_right (mul_nonneg hq0 hw0)
        exact le_trans this hWlo
      · refine le_trans hWhi ?_
        rw [List.map_cons, List.sum_cons]
        push_cast
        nlinarith [mul_le_mul_of_nonneg_right hq100 hw0]

theorem round_range {W : Rat} {T : Nat} (hT : 0 < T) (h0 : 0 ≤ W)
    (h100 : W ≤ 100 * (T : Rat)) :
    0 ≤ ⌊W / (T : Rat) + 1 / 2⌋ ∧ ⌊W / (T : Rat) + 1 / 2⌋ ≤ 100 := by
  have hTpos : (0 : Rat) < (T : Rat) := by exact_mod_cast hT
  have hdiv0 : 0 ≤ W / (T : Rat) := div_nonneg h0 (le_of_lt hTpos)
  have hdiv100 : W / (T : Rat) ≤ 100 := by
    rw [div_le_iff₀ hTpos]
    linarith
  constructor
  · exact Int.le_floor.mpr (by push_cast; linarith)
  · have hlt : (W / (T : Rat) + 1 / 2) < ((101 : Int) : Rat) := by
      push_cast
      linarith
    exact Int.lt_add_one_iff.mp (Int.floor_lt.mpr hlt)

/-- C10 (confirmed).  For every raw response on which the pipeline
succeeds and in which every matched raw category's `score` field is a
JSON number or absent, the computed overall score is an integer in
`[0, 100]`: present scores clamp into the interval, fallback scores lie
in it, the catalog weights are positive, and rounding the weighted mean
preserves the bounds. -/
theorem C10_overall_in_range :
    ∀ (settings : AnalysisSettings) (a : JVal) (out : List UsabilityCategory),
      processAnalysisResult settings a = .ok out →
      (∀ t ∈ USABILITY_CATEGORIES, ∀ v, findAiCategory a t.id = .ok v →
        jsTruthy v = true →
        (∃ q : Rat, jsGetField v "score" = .ok (.num q)) ∨
          jsGetField v "score" = .ok .undefined) →
      ∃ n : Int, calculateOverallScore out = .val n ∧ 0 ≤ n ∧ n ≤ 100 := by
  intro settings a out hp hsc
  obtain ⟨cats, hb, hout⟩ := processAnalysisResult_ok hp
  obtain ⟨pairs, hp1, hp2, hp3⟩ := buildAll_ok_pairs hb
  have hcats_bound : ∀ c ∈ cats, ∃ q, c.score = .val q ∧ 0 ≤ q ∧ q ≤ 100 := by
    intro c hc
    rw [← hp2] at hc
    obtain ⟨pr, hpr, hprc⟩ := List.mem_map.mp hc
    have ht : pr.1 ∈ USABILITY_CATEGORIES := hp1 ▸ List.mem_map_of_mem Prod.fst hpr
    subst hprc
    exact buildCategory_score_bound (hp3 pr hpr) (hsc pr.1 ht)
  have hout_sub : ∀ c ∈ out, c ∈ cats := by
    intro c hc
    rw [hout] at hc
    split at hc
    · exact hc
    · exact (List.mem_filter.mp hc).1
  have hbounds : ∀ c ∈ out, ∃ q, c.score = .val q ∧ 0 ≤ q ∧ q ≤ 100 :=
    fun c hc => hcats_bound c (hout_sub c hc)
  -- the navigation category survives any filtering, so the total weight
  -- of the output is positive
  have hnav : ∃ c ∈ out, c.weight = 20 := by
    have htmem : (⟨"navigation", "Navigation Clarity",
        "How easy it is to find and use navigation elements", 20⟩ :
        CategoryTemplate) ∈ USABILITY_CATEGORIES := by decide
    rw [← hp1] at htmem
    obtain ⟨pr, hpr, hprt⟩ := List.mem_map.mp htmem
    obtain ⟨hid, hwt⟩ := buildCategory_fields (hp3 pr hpr)
    have hcmem : pr.2 ∈ cats := hp2 ▸ List.mem_map_of_mem Prod.snd hpr
    refine ⟨pr.2, ?_, by rw [hwt, hprt]⟩
    rw [hout]
    split
    · exact hcmem
    · refine List.mem_filter.mpr ⟨hcmem, ?_⟩
      rw [hid, hprt]
      decide
  have hpos : 0 < totalWeight out := by
    obtain ⟨c, hc, hcw⟩ := hnav
    rw [totalWeight_eq_sum]
    have : c.weight ≤ (out.map fun c => c.weight).sum :=
      List.single_le_sum (fun x _ => Nat.zero_le x) _
        (List.mem_map_of_mem _ hc)
    rw [hcw] at this
    exact Nat.lt_of_lt_of_le (by norm_num) this
  obtain ⟨W, hW, h0, h100⟩ := weighted_fold_bound out hbounds 0
  rw [zero_add, ← totalWeight_eq_sum] at h100
  refine ⟨⌊W / (totalWeight out : Rat) + 1 / 2⌋, ?_,
    (round_range hpos h0 h100).1, (round_range hpos h0 h100).2⟩
  unfold calculateOverallScore weightedScore
  rw [hW]
  simp only [jnDivNat, jsRound]
  rw [if_neg (Nat.pos_iff_ne_zero.mp hpos)]

/-- Witness for `C10_overall_in_range`: the all-fallback report from
the raw response `{}` (every lookup yields `undefined`, so the
score-shape hypothesis holds vacuously). -/
theorem C10_overall_in_range_witness :
    ∃ n : Int,
      calculateOverallScore (USABILITY_CATEGORIES.map getKrugBasedRecommendations) =
        .val n ∧ 0 ≤ n ∧ n ≤ 100 :=
  C10_overall_in_range ⟨"claude", "standard", true, false⟩ (JVal.obj [])
    (USABILITY_CATEGORIES.map getKrugBasedRecommendations) (by decide)
    (by
      intro t ht v hv htv
      fin_cases ht <;>
        · rw [show findAiCategory (JVal.obj []) _ = .ok .undefined from by decide]
            at hv
          cases Except.ok.inj hv
          exact absurd htv (by decide))

end WebUsability
